import Mathlib

/-!
Verification of the Gestio inventory / point-of-sale panel (src/app.py) against its
natural-language specification.  The Flask routes are shallowly embedded as pure
functions over an explicit Firestore state; Firestore primitives (document get,
update, add, set, batched writes, ordered range queries) are modeled over
association lists.  Strings are processed over their character lists and rational
numbers stand in for Python floats, so that every definition evaluates inside the
kernel.
-/

/-! ## Python string and number primitives -/

/-- Characters removed by Python str.strip() (ASCII whitespace; the exotic unicode
whitespace classes are not exercised by this repository). -/
def pySpace (c : Char) : Bool :=
  c = ' ' || c = '\t' || c = '\n' || c = '\r' || c = '\x0b' || c = '\x0c'

/-- Python str.strip() on a character list: drop whitespace from both ends. -/
def stripChars (cs : List Char) : List Char :=
  ((cs.dropWhile pySpace).reverse.dropWhile pySpace).reverse

/-- Python str.strip(). -/
def pyStrip (s : String) : String := String.mk (stripChars s.data)

/-- Python str.lower() on the ASCII range (all data and spec examples of this
repository are ASCII; full unicode case mapping is not modeled). -/
def pyLower (s : String) : String := String.mk (s.data.map Char.toLower)

/-- Numeric value of a digit list, most significant first. -/
def digitsVal (cs : List Char) : Nat :=
  cs.foldl (fun n c => n * 10 + (c.toNat - '0'.toNat)) 0

/-- True when the list is a non-empty run of decimal digits. -/
def isDigits (cs : List Char) : Bool := !cs.isEmpty && cs.all Char.isDigit

/-- Strip one optional leading sign; returns (isNegative, rest). -/
def splitSign : List Char → Bool × List Char
  | '+' :: cs => (false, cs)
  | '-' :: cs => (true, cs)
  | cs => (false, cs)

/-- Split a character list at the first character satisfying p; the second
component is none when no such character occurs. -/
def splitFirst (p : Char → Bool) : List Char → List Char × Option (List Char)
  | [] => ([], none)
  | c :: cs =>
    if p c then ([], some cs)
    else
      let r := splitFirst p cs
      (c :: r.1, r.2)

/-- Python float(s) on decimal numerals: optional surrounding whitespace, optional
sign, digits with an optional fractional part, optional decimal exponent.  The
value is returned exactly as a rational (Python rounds it to binary floating
point; no claim of this development depends on that rounding).  The inf/nan
spellings and underscore digit separators accepted by Python are not modeled.
Returns none where Python float() raises ValueError. -/
def pyFloatChars (cs0 : List Char) : Option ℚ :=
  let cs := stripChars cs0
  let sc := splitSign cs
  let me := splitFirst (fun c => c = 'e' || c = 'E') sc.2
  let ifr := splitFirst (fun c => c = '.') me.1
  let ipart := ifr.1
  let fpart := (ifr.2).getD []
  if ipart.all Char.isDigit ∧ fpart.all Char.isDigit ∧ ¬(ipart.isEmpty ∧ fpart.isEmpty) then
    let expv : Option Int :=
      match me.2 with
      | none => some 0
      | some ecs =>
        let esc := splitSign ecs
        if isDigits esc.2 then
          some (if esc.1 then -(digitsVal esc.2 : Int) else (digitsVal esc.2 : Int))
        else none
    match expv with
    | none => none
    | some e =>
      let m : Int := if sc.1 then -(digitsVal (ipart ++ fpart) : Int) else (digitsVal (ipart ++ fpart) : Int)
      let shift : Int := e - (fpart.length : Int)
      some (if 0 ≤ shift then mkRat (m * (10 ^ shift.toNat : Nat)) 1 else mkRat m (10 ^ (-shift).toNat))
  else none

/-- Python float(s), see pyFloatChars. -/
def pyFloat (s : String) : Option ℚ := pyFloatChars s.data

/-- Python int(s) on decimal numerals: optional surrounding whitespace, optional
sign, digits (underscore separators not modeled).  Returns none where Python
int() raises ValueError. -/
def pyIntChars (cs0 : List Char) : Option Int :=
  let cs := stripChars cs0
  let sc := splitSign cs
  if isDigits sc.2 then some (if sc.1 then -(digitsVal sc.2 : Int) else (digitsVal sc.2 : Int))
  else none

/-- Python int(s), see pyIntChars. -/
def pyInt (s : String) : Option Int := pyIntChars s.data

/-- True when pattern p is an initial segment of s (used to state prefix-match
properties and to classify /panel routes). -/
def startsWith : List Char → List Char → Bool
  | [], _ => true
  | _ :: _, [] => false
  | p :: ps, c :: cs => p = c && startsWith ps cs

/-! ## Document model

Firestore documents are schemaless: every field of a document may be absent, and
the routes read fields with dict.get defaults.  Each collection is an
association list of (document id, document); real Firestore document ids are
unique within a collection. -/

/-- A document of the productos collection. -/
structure Producto where
  nombre : Option String := none
  nombre_lower : Option String := none
  precio : Option ℚ := none
  stock : Option Int := none
deriving DecidableEq

/-- One line of a sale request: a JSON object with an id and a cantidad.  The
cantidad field holds the value after the int(... or 0) conversions performed by
the routes would see it (none models an absent or null field; the route turns
it into 0). -/
structure ItemVenta where
  id : String
  cantidad : Option Int := none
deriving DecidableEq

/-- A UTC instant at second precision (Firestore timestamps also carry
nanoseconds; nothing in the routes observes sub-second precision). -/
structure DateTime where
  year : Nat := 0
  month : Nat := 1
  day : Nat := 1
  hour : Nat := 0
  minute : Nat := 0
  second : Nat := 0
deriving DecidableEq

/-- A document of the ventas collection. -/
structure VentaDoc where
  items : List ItemVenta := []
  total : Option ℚ := none
  ts : Option DateTime := none
deriving DecidableEq

/-- A document of the usuarios collection. -/
structure UsuarioDoc where
  email : Option String := none
  password_hash : Option String := none
  rol : Option String := none
  activo : Option Bool := none
deriving DecidableEq

/-- The Firestore state the routes act on. -/
structure DB where
  productos : List (String × Producto) := []
  ventas : List (String × VentaDoc) := []
deriving DecidableEq

/-- Firestore collection.document(id).get(): the document with the given id. -/
def getDoc (col : List (String × α)) (id : String) : Option α :=
  (col.find? (fun d => d.1 = id)).map (fun d => d.2)

/-- Firestore doc_ref.update-style modification of the document with the given
id: the first (in real Firestore, unique) entry with that id is rewritten by f;
a missing id leaves the collection unchanged (the routes that reach this in
that situation are modeled separately, because real Firestore raises NotFound). -/
def updateDoc (col : List (String × α)) (id : String) (f : α → α) : List (String × α) :=
  match col with
  | [] => []
  | d :: rest => if d.1 = id then (d.1, f d.2) :: rest else d :: updateDoc rest id f

/-- Firestore document reference set (upsert): overwrite the document if the id
exists, otherwise append it. -/
def setDoc (col : List (String × α)) (id : String) (v : α) : List (String × α) :=
  if (col.find? (fun d => d.1 = id)).isSome then updateDoc col id (fun _ => v)
  else col ++ [(id, v)]

/-! ## Catalog create and update routes -/

/-- Outcome of POST /api/productos. -/
inductive ApiCreateResult
  | redirectPanel
  | error400
deriving DecidableEq

/-- Evaluation of float(request.form.get("precio", 0) or 0) in the API create:
an absent field takes the integer default 0 and an empty string is falsy, both
giving 0.0; anything else goes through float(), whose ValueError the route
turns into a 400. -/
def apiPrecio (precio? : Option String) : Option ℚ :=
  match precio? with
  | none => some 0
  | some s => if s = "" then some 0 else pyFloat s

/-- Evaluation of int(request.form.get("stock", 0) or 0) in the API create. -/
def apiStock (stock? : Option String) : Option Int :=
  match stock? with
  | none => some 0
  | some s => if s = "" then some 0 else pyInt s

/-- Evaluation of float(precio_raw) in the two panel forms: an absent field is
None and raises TypeError, an unparseable one ValueError; both are caught and
turned into the same flash message. -/
def formPrecio (precio? : Option String) : Option ℚ :=
  match precio? with
  | none => none
  | some s => pyFloat s

/-- Evaluation of int(stock_raw) in the two panel forms. -/
def formStock (stock? : Option String) : Option Int :=
  match stock? with
  | none => none
  | some s => pyInt s

/-- POST /api/productos (handler productos, src/app.py lines 84-99): programmatic
create.  nombre is request.form.get("nombre") or "" then strip; precio is
float(request.form.get("precio", 0) or 0) so an absent or empty field becomes 0
and an unparseable one raises ValueError, caught by the blanket except as a 400
JSON error (error payload text not modeled); stock likewise with int.  On
success a document with nombre, nombre_lower, precio and stock is added under a
Firestore auto id (parameter newId) and the route redirects to the panel.  Note
that no validation beyond parseability happens here: empty nombre and negative
precio or stock are accepted. -/
def api_productos_post (db : DB) (newId : String)
    (nombre? precio? stock? : Option String) : DB × ApiCreateResult :=
  let nombre := pyStrip (nombre?.getD "")
  match apiPrecio precio?, apiStock stock? with
  | some precio, some stock =>
    ({ db with productos := db.productos ++
        [(newId, { nombre := some nombre, nombre_lower := some (pyLower nombre),
                   precio := some precio, stock := some stock })] },
     ApiCreateResult.redirectPanel)
  | _, _ => (db, ApiCreateResult.error400)

/-- Outcome of POST /panel/productos/nuevo. -/
inductive FormCreateResult
  | badRequest (errores : List String)
  | created
deriving DecidableEq

/-- The flash messages accumulated by the create form, in source order: empty
name, then the precio check (unparseable, or negative), then the stock check. -/
def erroresNuevo (nombre : String) (precioR : Option ℚ) (stockR : Option Int) : List String :=
  (if nombre = "" then ["El nombre es obligatorio."] else []) ++
  (match precioR with
   | none => ["El precio debe ser un número válido."]
   | some p => if p < 0 then ["El precio no puede ser negativo."] else []) ++
  (match stockR with
   | none => ["El stock debe ser un número entero válido."]
   | some n => if n < 0 then ["El stock no puede ser negativo."] else [])

/-- POST /panel/productos/nuevo (handler nuevo_producto_form, src/app.py lines
153-195): validated create.  The route accumulates the flash messages of every
failing check, re-renders with status 400 and writes nothing when any is
present; otherwise it adds the document.  The written document carries nombre,
precio and stock only: the source does NOT write a nombre_lower field on this
path (unlike the API create and the edit route). -/
def nuevo_producto_form (db : DB) (newId : String)
    (nombre? precio? stock? : Option String) : DB × FormCreateResult :=
  let nombre := pyStrip (nombre?.getD "")
  let precioR := formPrecio precio?
  let stockR := formStock stock?
  let errores := erroresNuevo nombre precioR stockR
  if errores.isEmpty then
    ({ db with productos := db.productos ++
        [(newId, { nombre := some nombre, precio := some (precioR.getD 0),
                   stock := some (stockR.getD 0) })] },
     FormCreateResult.created)
  else (db, FormCreateResult.badRequest errores)

/-- Outcome of POST /panel/productos/(doc_id)/editar.  uncaughtNotFound models
the google.cloud NotFound exception raised by doc_ref.update on a nonexistent
document: no handler in src/app.py catches it, so Flask serves its generic
fault page (HTTP 500). -/
inductive EditFormResult
  | badRequest (errores : List String)
  | updatedRedirect
  | uncaughtNotFound
deriving DecidableEq

/-- The flash messages accumulated by the edit form; the source words its two
stock messages differently from the create form and they are kept verbatim. -/
def erroresEditar (nombre : String) (precioR : Option ℚ) (stockR : Option Int) : List String :=
  (if nombre = "" then ["El nombre es obligatorio."] else []) ++
  (match precioR with
   | none => ["El precio debe ser un número válido."]
   | some p => if p < 0 then ["El precio no puede ser negativo."] else []) ++
  (match stockR with
   | none => ["El stock debe ser un entero válido."]
   | some n => if n < 0 then ["El stock no puede ser un entero válido."] else [])

/-- POST /panel/productos/(doc_id)/editar (handler editar_producto_form,
src/app.py lines 208-251): validated update with the same shape of checks as
the create form.  When validation passes the route calls doc_ref.update with
nombre, nombre_lower, precio and stock; Firestore update merges the fields
into an existing document and raises NotFound when the document does not
exist.  The GET branch of the same handler checks existence and redirects with
a flash message instead; it performs no write and is not modeled. -/
def editar_producto_form (db : DB) (docId : String)
    (nombre? precio? stock? : Option String) : DB × EditFormResult :=
  let nombre := pyStrip (nombre?.getD "")
  let precioR := formPrecio precio?
  let stockR := formStock stock?
  let errores := erroresEditar nombre precioR stockR
  if errores.isEmpty then
    if (getDoc db.productos docId).isSome then
      ({ db with productos := updateDoc db.productos docId (fun p =>
          { p with nombre := some nombre, nombre_lower := some (pyLower nombre),
                   precio := some (precioR.getD 0), stock := some (stockR.getD 0) }) },
       EditFormResult.updatedRedirect)
    else (db, EditFormResult.uncaughtNotFound)
  else (db, EditFormResult.badRequest errores)

/-! ## Sale registration route -/

/-- Outcome of POST /api/ventas.  All three error forms are HTTP 400 JSON
bodies; ok is the 200 response.  productoNoExiste carries the offending line id
and stockInsuficiente carries the nombre the message interpolates. -/
inductive VentaResult
  | ok
  | carritoVacio
  | productoNoExiste (id : String)
  | stockInsuficiente (nombre : String)
deriving DecidableEq

/-- The validation loop of registrar_venta (src/app.py lines 376-386): walks the
line items in order against the CURRENT database snapshot (batch updates are
not visible to reads before commit), returning the first error, or the list of
batch.update payloads (document id, new stock value) in item order. -/
def ventaBatch (db : DB) : List ItemVenta → Except VentaResult (List (String × Int))
  | [] => Except.ok []
  | it :: rest =>
    match getDoc db.productos it.id with
    | none => Except.error (VentaResult.productoNoExiste it.id)
    | some sdata =>
      let stock_actual := sdata.stock.getD 0
      let cant := it.cantidad.getD 0
      if stock_actual < cant then
        Except.error (VentaResult.stockInsuficiente (sdata.nombre.getD "(sin nombre)"))
      else
        match ventaBatch db rest with
        | Except.error e => Except.error e
        | Except.ok b => Except.ok ((it.id, stock_actual - cant) :: b)

/-- batch.commit() on the productos collection: the accumulated stock updates
are applied in order (Firestore applies the writes of one commit sequentially,
so a later update to the same document overwrites an earlier one). -/
def applyBatch (col : List (String × Producto)) : List (String × Int) → List (String × Producto)
  | [] => col
  | u :: rest => applyBatch (updateDoc col u.1 (fun p => { p with stock := some u.2 })) rest

/-- Stock value the validation loop reads for a line id: int(stock field or 0)
of the referenced document, as seen in the pre-commit snapshot (0 for a
missing document, a case the loop rejects before using the value). -/
def stockLeido (db : DB) (id : String) : Int :=
  match getDoc db.productos id with
  | some p => p.stock.getD 0
  | none => 0

/-- True when a line fails the stock comparison of the validation loop. -/
def lineaInsuficiente (db : DB) (it : ItemVenta) : Bool :=
  decide (stockLeido db it.id < it.cantidad.getD 0)

/-- POST /api/ventas (handler registrar_venta, src/app.py lines 364-398).
Inputs: the parsed JSON items list, and total as float(data.get("total") or 0)
sees it (none models an absent or falsy total, which becomes 0).  newId is the
Firestore auto id drawn for the venta document and now the server-assigned
timestamp.  An empty cart, a missing product or an insufficient line is
rejected before batch.commit(), so the state is returned unchanged on every
error; on success the batch atomically applies every stock update and sets the
one new venta document carrying the submitted items, the submitted total and
the server timestamp. -/
def registrar_venta (db : DB) (newId : String) (now : DateTime)
    (items : List ItemVenta) (total? : Option ℚ) : DB × VentaResult :=
  let total := total?.getD 0
  if items.isEmpty then (db, VentaResult.carritoVacio)
  else
    match ventaBatch db items with
    | Except.error e => (db, e)
    | Except.ok batch =>
      ({ productos := applyBatch db.productos batch,
         ventas := setDoc db.ventas newId { items := items, total := some total, ts := some now } },
       VentaResult.ok)

/-! ## Product search route -/

/-- Code point comparison of two characters (Firestore orders strings by UTF-8
bytes, which coincides with code point order). -/
def charCmp (a b : Char) : Ordering := compare a.toNat b.toNat

/-- Lexicographic code point comparison of two character lists: the string
order used by Firestore order_by on a string field. -/
def lexCmp : List Char → List Char → Ordering
  | [], [] => Ordering.eq
  | [], _ :: _ => Ordering.lt
  | _ :: _, [] => Ordering.gt
  | a :: as, b :: bs => (charCmp a b).then (lexCmp as bs)

/-- Non-strict string order as a Bool. -/
def lexLe (a b : List Char) : Bool := decide (lexCmp a b ≠ Ordering.gt)

/-- Membership of a producto document in the range scanned by
order_by("nombre_lower").start_at([q]).end_at([q + ""]): both bounds are
inclusive, and a document without a nombre_lower field is excluded by the
order_by clause itself. -/
def enRango (ql : List Char) (d : String × Producto) : Bool :=
  match d.2.nombre_lower with
  | some s => lexLe ql s.data && lexLe s.data (ql ++ ['\uF8FF'])
  | none => false

/-- Scan key comparison of the query: nombre_lower first, then the document id,
which Firestore appends as final tiebreaker. -/
def cmpBuscar (a b : String × Producto) : Ordering :=
  (lexCmp ((a.2.nombre_lower.getD "").data) ((b.2.nombre_lower.getD "").data)).then
    (lexCmp a.1.data b.1.data)

/-- Strict scan key order. -/
def buscarKeyLt (a b : String × Producto) : Bool := decide (cmpBuscar a b = Ordering.lt)

/-- One step of the range scan: keep the least in-range document seen so far. -/
def buscarStep (ql : List Char) (best : Option (String × Producto)) (d : String × Producto) :
    Option (String × Producto) :=
  if enRango ql d then
    match best with
    | none => some d
    | some b => if buscarKeyLt d b then some d else some b
  else best

/-- Result of the limit(1) range scan: the least in-range document under the
(nombre_lower, id) key, none when the range is empty. -/
def firstInRange (col : List (String × Producto)) (ql : List Char) : Option (String × Producto) :=
  col.foldl (buscarStep ql) none

/-- Outcome of GET /api/buscar_producto. -/
inductive BuscarResult
  | badRequest
  | found (id : String) (p : Producto)
  | notFound
deriving DecidableEq

/-- GET /api/buscar_producto?q= (handler buscar_producto, src/app.py lines
108-135): 400 on an empty (after strip) query; otherwise first an exact
document id lookup with the stripped query, then the ascending nombre_lower
range scan with the lowercased query and the "" upper sentinel, limited
to one result; 404 when both miss. -/
def buscar_producto (db : DB) (q? : Option String) : BuscarResult :=
  let q := pyStrip (q?.getD "")
  if q = "" then BuscarResult.badRequest
  else
    match db.productos.find? (fun d => d.1 = q) with
    | some d => BuscarResult.found d.1 d.2
    | none =>
      let q_lower := pyLower q
      match firstInRange db.productos q_lower.data with
      | some d => BuscarResult.found d.1 d.2
      | none => BuscarResult.notFound

/-! ## Login route -/

/-- Outcome of POST /login: the three rejection flashes (401, 403, 401) and the
established session on success. -/
inductive LoginResult
  | notFound
  | inactive
  | invalidCredentials
  | success (userId email rol : String) (activo : Bool)
deriving DecidableEq

/-- POST /login (handler login, src/app.py lines 537-560).  The submitted email
is stripped and lowercased and used as the usuarios document id.  checkHash
abstracts werkzeug check_password_hash(stored_hash, password).  Order of
checks: missing document, then inactive flag (activo defaults to True when the
field is absent), then password hash, then success with the session fields the
route passes to the User constructor. -/
def login_route (usuarios : List (String × UsuarioDoc)) (checkHash : String → String → Bool)
    (email? pass? : Option String) : LoginResult :=
  let email := pyLower (pyStrip (email?.getD ""))
  let password := pass?.getD ""
  match usuarios.find? (fun d => d.1 = email) with
  | none => LoginResult.notFound
  | some d =>
    if !(d.2.activo.getD true) then LoginResult.inactive
    else if !(checkHash (d.2.password_hash.getD "") password) then LoginResult.invalidCredentials
    else LoginResult.success d.1 (d.2.email.getD "") (d.2.rol.getD "user") (d.2.activo.getD true)

/-! ## Route table (session gating) -/

/-- One Flask route of src/app.py: method, path, handler name and whether the
handler carries the login_required decorator (Flask-Login redirects to the
login view, preserving the destination, when no session is active). -/
structure Route where
  method : String
  path : String
  handler : String
  gated : Bool
deriving DecidableEq

/-- The complete route table of src/app.py, one entry per (method, path). -/
def routes : List Route := [
  ⟨"GET", "/", "home", false⟩,
  ⟨"GET", "/api/productos", "productos", false⟩,
  ⟨"POST", "/api/productos", "productos", false⟩,
  ⟨"GET", "/api/buscar_producto", "buscar_producto", false⟩,
  ⟨"GET", "/panel/productos", "panel_productos", true⟩,
  ⟨"GET", "/panel/productos/nuevo", "nuevo_producto_form", true⟩,
  ⟨"POST", "/panel/productos/nuevo", "nuevo_producto_form", true⟩,
  ⟨"GET", "/panel/productos/<doc_id>/editar", "editar_producto_form", true⟩,
  ⟨"POST", "/panel/productos/<doc_id>/editar", "editar_producto_form", true⟩,
  ⟨"POST", "/panel/productos/<doc_id>/eliminar", "eliminar_producto", true⟩,
  ⟨"GET", "/panel/dashboard", "panel_dashboard", true⟩,
  ⟨"GET", "/panel/alertas", "panel_alertas", true⟩,
  ⟨"GET", "/panel/caja", "panel_caja", true⟩,
  ⟨"POST", "/api/ventas", "registrar_venta", false⟩,
  ⟨"GET", "/panel/ventas", "panel_ventas", true⟩,
  ⟨"GET", "/panel/ventas.csv", "export_ventas_csv", true⟩,
  ⟨"GET", "/panel/ventas/<venta_id>", "panel_venta_detalle", true⟩,
  ⟨"GET", "/login", "login", false⟩,
  ⟨"POST", "/login", "login", false⟩,
  ⟨"GET", "/logout", "logout", false⟩]

/-- Catalog operations in the sense of spec section 4.1: list, create, update,
delete and search over the productos collection (both API and panel entry
points). -/
def isCatalogOp (r : Route) : Bool :=
  ["productos", "buscar_producto", "panel_productos", "nuevo_producto_form",
   "editar_producto_form", "eliminar_producto"].contains r.handler

/-- Sale reporting views in the sense of spec section 4.3: the ventas listing,
its CSV export and the sale detail view. -/
def isSaleReporting (r : Route) : Bool :=
  ["panel_ventas", "export_ventas_csv", "panel_venta_detalle"].contains r.handler

/-- Panel views: the HTML views mounted under /panel. -/
def isPanelView (r : Route) : Bool := startsWith "/panel".data r.path.data

/-- The public catalog JSON read named as an exception by the claim. -/
def isPublicCatalogRead (r : Route) : Bool := r.method == "GET" && r.path == "/api/productos"

/-- The sale registration endpoint named as an exception by the claim. -/
def isSaleRegistration (r : Route) : Bool := r.handler == "registrar_venta"

/-- The protection predicate exactly as claim C5 states it: every catalog
operation, sale reporting view and panel view, minus the two stated
exceptions. -/
def claimProtectedC5 (r : Route) : Bool :=
  (isCatalogOp r || isSaleReporting r || isPanelView r) &&
    !(isPublicCatalogRead r || isSaleRegistration r)

/-- The exceptions the route table actually has: the two the claim names plus
the programmatic create POST /api/productos and the public search endpoint
GET /api/buscar_producto. -/
def exentoReal (r : Route) : Bool :=
  isPublicCatalogRead r || isSaleRegistration r ||
    (r.method == "POST" && r.path == "/api/productos") || r.handler == "buscar_producto"

/-! ## Sales reporting routes -/

/-- Comparison of two instants: lexicographic on the calendar fields. -/
def dtCmp (a b : DateTime) : Ordering :=
  (compare a.year b.year).then ((compare a.month b.month).then ((compare a.day b.day).then
    ((compare a.hour b.hour).then ((compare a.minute b.minute).then
      (compare a.second b.second)))))

/-- Non-strict instant order as a Bool. -/
def dtLe (a b : DateTime) : Bool := decide (dtCmp a b ≠ Ordering.gt)

/-- Strict instant order as a Bool. -/
def dtLt (a b : DateTime) : Bool := decide (dtCmp a b = Ordering.lt)

/-- Gregorian leap year test. -/
def leapYear (y : Nat) : Bool := (y % 4 == 0 && y % 100 != 0) || y % 400 == 0

/-- Days in a Gregorian month. -/
def daysInMonth (y m : Nat) : Nat :=
  if m = 2 then (if leapYear y then 29 else 28)
  else if m = 4 ∨ m = 6 ∨ m = 9 ∨ m = 11 then 30 else 31

/-- Split a character list on a separator character; n+1 groups for n
separators. -/
def splitOnChar (sep : Char) : List Char → List (List Char)
  | [] => [[]]
  | c :: cs =>
    let r := splitOnChar sep cs
    if c = sep then [] :: r
    else
      match r with
      | [] => [[c]]
      | g :: gs => (c :: g) :: gs

/-- Python datetime.strptime(s, "%Y-%m-%d"): three dash-separated digit groups
(year up to four digits, month and day up to two), a valid calendar date;
yields midnight of that day.  Returns none where strptime raises ValueError,
which no route catches. -/
def strptimeYmd (s : String) : Option DateTime :=
  match splitOnChar '-' s.data with
  | [ys, ms, ds] =>
    if isDigits ys ∧ ys.length ≤ 4 ∧ isDigits ms ∧ ms.length ≤ 2 ∧ isDigits ds ∧ ds.length ≤ 2 then
      let y := digitsVal ys
      let m := digitsVal ms
      let d := digitsVal ds
      if 1 ≤ m ∧ m ≤ 12 ∧ 1 ≤ d ∧ d ≤ daysInMonth y m then
        some { year := y, month := m, day := d }
      else none
    else none
  | _ => none

/-- Python timedelta(days=1) added to a midnight datetime. -/
def addOneDay (d : DateTime) : DateTime :=
  if d.day < daysInMonth d.year d.month then { d with day := d.day + 1 }
  else if d.month < 12 then { d with month := d.month + 1, day := 1 }
  else { d with year := d.year + 1, month := 1, day := 1 }

/-- Evaluation of one optional date filter argument: Python truthiness makes an
absent or empty parameter apply no bound; a present malformed one raises
ValueError in strptime (outer none); a well-formed one yields the bound. -/
def ventaBound (s? : Option String) : Option (Option DateTime) :=
  match s? with
  | none => some none
  | some s =>
    if s = "" then some none
    else
      match strptimeYmd s with
      | some d => some (some d)
      | none => none

/-- Ascending scan key comparison of the ventas query: ts first, then the
document id, which Firestore appends as final tiebreaker.  Entries reaching
the sort always carry a ts; the default for the none case only totalizes the
comparator. -/
def cmpVenta (a b : String × VentaDoc) : Ordering :=
  (dtCmp (a.2.ts.getD {}) (b.2.ts.getD {})).then (lexCmp a.1.data b.1.data)

/-- Descending scan order of the ventas query: order_by("ts", DESCENDING), with
the implicit tiebreaker in the same direction. -/
def ventaDescLe (a b : String × VentaDoc) : Bool := decide (cmpVenta b a ≠ Ordering.gt)

/-- Insert into a le-sorted list, keeping it sorted. -/
def insertSorted (le : α → α → Bool) (a : α) : List α → List α
  | [] => [a]
  | b :: bs => if le a b then a :: b :: bs else b :: insertSorted le a bs

/-- Insertion sort by a Bool comparison (the ordered scan Firestore performs). -/
def sortByLe (le : α → α → Bool) : List α → List α
  | [] => []
  | a :: as => insertSorted le a (sortByLe le as)

/-- Filter predicate of the ventas query: the document must carry a ts (a
document without the order_by field is excluded by Firestore), at least the
lower bound when one is given and strictly below the upper bound when one is
given. -/
def ventaPasaFiltro (fb tb : Option DateTime) (d : String × VentaDoc) : Bool :=
  match d.2.ts with
  | none => false
  | some ts =>
    (match fb with | none => true | some lo => dtLe lo ts) &&
    (match tb with | none => true | some hi => dtLt ts hi)

/-- The ventas query as built by panel_ventas (src/app.py lines 425-441):
optional where("ts", ">=", from midnight) and where("ts", "<", to + 1 day),
order_by ts descending; none models the uncaught strptime ValueError. -/
def ventasQueryPanel (db : DB) (f? t? : Option String) : Option (List (String × VentaDoc)) :=
  match ventaBound f?, (ventaBound t?).map (Option.map addOneDay) with
  | some fb, some tb => some (sortByLe ventaDescLe (db.ventas.filter (ventaPasaFiltro fb tb)))
  | _, _ => none

/-- The ventas query as built, a second time, by export_ventas_csv (src/app.py
lines 462-470); the source duplicates the panel_ventas query code verbatim. -/
def ventasQueryCsv (db : DB) (f? t? : Option String) : Option (List (String × VentaDoc)) :=
  match ventaBound f?, (ventaBound t?).map (Option.map addOneDay) with
  | some fb, some tb => some (sortByLe ventaDescLe (db.ventas.filter (ventaPasaFiltro fb tb)))
  | _, _ => none

/-- One row of the ventas listing as panel_ventas assembles it. -/
structure VentaResumen where
  id : String
  ts : Option DateTime
  total : ℚ
  items_count : Int
deriving DecidableEq

/-- GET /panel/ventas (handler panel_ventas, src/app.py lines 421-452): runs the
query and summarizes each venta document into id, raw ts, float(total or 0)
and the item count sum(int(cantidad or 0)). -/
def panel_ventas (db : DB) (f? t? : Option String) : Option (List VentaResumen) :=
  (ventasQueryPanel db f? t?).map (List.map (fun d =>
    { id := d.1, ts := d.2.ts, total := d.2.total.getD 0,
      items_count := (d.2.items.map (fun i => i.cantidad.getD 0)).sum }))

/-- Zero-padded two-digit decimal rendering (strftime field). -/
def pad2 (n : Nat) : String := if n < 10 then "0" ++ toString n else toString n

/-- Zero-padded four-digit decimal rendering (strftime %Y). -/
def pad4 (n : Nat) : String :=
  if n < 10 then "000" ++ toString n
  else if n < 100 then "00" ++ toString n
  else if n < 1000 then "0" ++ toString n
  else toString n

/-- Python strftime("%Y-%m-%d %H:%M"). -/
def strftimeYmdHM (d : DateTime) : String :=
  pad4 d.year ++ "-" ++ pad2 d.month ++ "-" ++ pad2 d.day ++ " " ++
    pad2 d.hour ++ ":" ++ pad2 d.minute

/-- One cell of the CSV row lists the route builds: the handler mixes strings,
ints and floats in one Python list and leaves the text rendering to the csv
module, which the spec puts out of scope. -/
inductive Cell
  | str (s : String)
  | int (n : Int)
  | num (q : ℚ)
deriving DecidableEq

/-- GET /panel/ventas.csv (handler export_ventas_csv, src/app.py lines 458-492):
runs its own copy of the query and renders a header row id, fecha, items,
total followed by one row per venta: the document id, the timestamp as
"%Y-%m-%d %H:%M" or the empty string when the field is absent, the item count
and float(total or 0). -/
def export_ventas_csv (db : DB) (f? t? : Option String) : Option (List (List Cell)) :=
  (ventasQueryCsv db f? t?).map (fun ds =>
    [Cell.str "id", Cell.str "fecha", Cell.str "items", Cell.str "total"] ::
    ds.map (fun d =>
      [Cell.str d.1,
       Cell.str (match d.2.ts with | some dt => strftimeYmdHM dt | none => ""),
       Cell.int ((d.2.items.map (fun i => i.cantidad.getD 0)).sum),
       Cell.num (d.2.total.getD 0)]))

/-- Rendering of one panel_ventas summary into a CSV data row; this definition
follows the words of the spec (header and per-column description of
export_csv) and is compared against export_ventas_csv in claim C8. -/
def ventaCsvRow (v : VentaResumen) : List Cell :=
  [Cell.str v.id,
   Cell.str (match v.ts with | some dt => strftimeYmdHM dt | none => ""),
   Cell.int v.items_count,
   Cell.num v.total]

/-! ## Spec-side predicates and concrete instances -/

/-- A parsed price that the spec calls valid: parseable and non-negative. -/
def precioValido (precioR : Option ℚ) : Prop := ∃ p, precioR = some p ∧ 0 ≤ p

/-- A parsed stock that the spec calls valid: parseable and non-negative. -/
def stockValido (stockR : Option Int) : Prop := ∃ n, stockR = some n ∧ 0 ≤ n

/-- Validity of a create request following the words of the spec: name
non-empty after trimming, price parseable as a non-negative number, stock
parseable as a non-negative integer. -/
def createValido (nombre? precio? stock? : Option String) : Prop :=
  pyStrip (nombre?.getD "") ≠ "" ∧ precioValido (formPrecio precio?) ∧
    stockValido (formStock stock?)

/-- Catalog with one product, stock 5, used for the sale-registration claims. -/
def dbAgua : DB := { productos := [("p1", { nombre := some "Agua", stock := some 5 })] }

/-- Catalog holding a product with negative stock, reachable through the
unvalidated POST /api/productos (see claim C4). -/
def dbAguaNegativa : DB :=
  { productos := [("p1", { nombre := some "Agua", stock := some (-5) })] }

/-- Catalog whose single nombre_lower contains U+F900 right after the letter a,
above the U+F8FF range sentinel of the search route. -/
def dbSentinela : DB :=
  { productos := [("p1", { nombre := some (String.mk ['a', '\uF900']),
                           nombre_lower := some (String.mk ['a', '\uF900']) })] }

/-- Catalog for the search witness: one name with the queried prefix, one with
it only in the middle. -/
def dbBusqueda : DB :=
  { productos := [("p9", { nombre := some "abc123", nombre_lower := some "abc123" }),
                  ("p2", { nombre := some "xabc", nombre_lower := some "xabc" })] }

/-- Ledger with two dated sales and one undated one, for the reporting
witness. -/
def dbVentas : DB :=
  { ventas := [
      ("v1", { items := [⟨"p1", some 2⟩], total := some (mkRat 10 1),
               ts := some ⟨2024, 1, 15, 12, 30, 0⟩ }),
      ("v2", { items := [⟨"p1", some 1⟩, ⟨"p2", some 4⟩], total := some (mkRat 7 2),
               ts := some ⟨2024, 2, 1, 9, 0, 0⟩ }),
      ("v3", { items := [], total := none, ts := none })] }

/-- Credential store with a single deactivated account, for the login
witness. -/
def usuariosInactivo : List (String × UsuarioDoc) :=
  [("a@b.c", { email := some "a@b.c", password_hash := some "H", rol := some "admin",
               activo := some false })]

/-! ## Comparator theory

Small theory of three-way comparators, used for the Firestore scan orders
(nombre_lower range scan, ts-descending ventas scan). -/

/-- Antisymmetry of a comparator: swapping the arguments swaps the verdict. -/
def CmpSymm (cmp : α → α → Ordering) : Prop := ∀ a b, cmp a b = (cmp b a).swap

/-- Transitivity of the non-strict order induced by a comparator. -/
def CmpLeTrans (cmp : α → α → Ordering) : Prop :=
  ∀ a b c, cmp a b ≠ Ordering.gt → cmp b c ≠ Ordering.gt → cmp a c ≠ Ordering.gt

theorem then_eq_gt_iff (x y : Ordering) :
    x.then y = Ordering.gt ↔ x = Ordering.gt ∨ (x = Ordering.eq ∧ y = Ordering.gt) := by
  cases x <;> simp [Ordering.then]

theorem then_eq_lt_iff (x y : Ordering) :
    x.then y = Ordering.lt ↔ x = Ordering.lt ∨ (x = Ordering.eq ∧ y = Ordering.lt) := by
  cases x <;> simp [Ordering.then]

theorem cmp_eq_trans {cmp : α → α → Ordering} (hs : CmpSymm cmp) (ht : CmpLeTrans cmp)
    {a b c : α} (h1 : cmp a b = Ordering.eq) (h2 : cmp b c = Ordering.eq) :
    cmp a c = Ordering.eq := by
  have hac : cmp a c ≠ Ordering.gt := ht a b c (by simp [h1]) (by simp [h2])
  have hba : cmp b a = Ordering.eq := by rw [hs b a, h1]; rfl
  have hcb : cmp c b = Ordering.eq := by rw [hs c b, h2]; rfl
  have hca : cmp c a ≠ Ordering.gt := ht c b a (by simp [hcb]) (by simp [hba])
  cases h : cmp a c with
  | lt => exact absurd (by rw [hs c a, h]; rfl) hca
  | eq => rfl
  | gt => exact absurd h hac

theorem cmp_lt_of_lt_le {cmp : α → α → Ordering} (hs : CmpSymm cmp) (ht : CmpLeTrans cmp)
    {a b c : α} (h1 : cmp a b = Ordering.lt) (h2 : cmp b c ≠ Ordering.gt) :
    cmp a c = Ordering.lt := by
  have hac : cmp a c ≠ Ordering.gt := ht a b c (by simp [h1]) h2
  cases h : cmp a c with
  | lt => rfl
  | gt => exact absurd h hac
  | eq =>
    have hca : cmp c a = Ordering.eq := by rw [hs c a, h]; rfl
    have hcb : cmp c b ≠ Ordering.gt := ht c a b (by simp [hca]) (by simp [h1])
    have hbc : cmp b c = Ordering.eq := by
      rw [hs b c]
      cases h2' : cmp c b with
      | lt => exact absurd (by rw [hs b c, h2']; rfl) h2
      | eq => rfl
      | gt => exact absurd h2' hcb
    have hba : cmp b a ≠ Ordering.gt := ht b c a (by simp [hbc]) (by simp [hca])
    exact absurd (by rw [hs b a, h1]; rfl) hba

theorem cmp_lt_of_le_lt {cmp : α → α → Ordering} (hs : CmpSymm cmp) (ht : CmpLeTrans cmp)
    {a b c : α} (h1 : cmp a b ≠ Ordering.gt) (h2 : cmp b c = Ordering.lt) :
    cmp a c = Ordering.lt := by
  cases h1' : cmp a b with
  | lt => exact cmp_lt_of_lt_le hs ht h1' (by simp [h2])
  | gt => exact absurd h1' h1
  | eq =>
    have hac : cmp a c ≠ Ordering.gt := ht a b c (by simp [h1']) (by simp [h2])
    cases h : cmp a c with
    | lt => rfl
    | gt => exact absurd h hac
    | eq =>
      have hca : cmp c a = Ordering.eq := by rw [hs c a, h]; rfl
      have hcb : cmp c b ≠ Ordering.gt := ht c a b (by simp [hca]) (by simp [h1'])
      exact absurd (by rw [hs c b, h2]; rfl) hcb

theorem cmpSymm_then {f g : α → α → Ordering} (hf : CmpSymm f) (hg : CmpSymm g) :
    CmpSymm (fun a b => (f a b).then (g a b)) := by
  intro a b
  simp only [hf a b, hg a b]
  cases f b a <;> cases g b a <;> rfl

theorem cmpLeTrans_then {f g : α → α → Ordering}
    (hfs : CmpSymm f) (hft : CmpLeTrans f) (hgt : CmpLeTrans g) :
    CmpLeTrans (fun a b => (f a b).then (g a b)) := by
  intro a b c h1 h2 hgoal
  simp only at h1 h2 hgoal
  rw [then_eq_gt_iff] at hgoal
  have h1' : f a b = Ordering.lt ∨ (f a b = Ordering.eq ∧ g a b ≠ Ordering.gt) := by
    cases hf : f a b with
    | lt => exact Or.inl rfl
    | gt => exact absurd (by rw [then_eq_gt_iff]; exact Or.inl hf) h1
    | eq =>
      refine Or.inr ⟨rfl, fun hg => ?_⟩
      exact h1 (by rw [then_eq_gt_iff]; exact Or.inr ⟨hf, hg⟩)
  have h2' : f b c = Ordering.lt ∨ (f b c = Ordering.eq ∧ g b c ≠ Ordering.gt) := by
    cases hf : f b c with
    | lt => exact Or.inl rfl
    | gt => exact absurd (by rw [then_eq_gt_iff]; exact Or.inl hf) h2
    | eq =>
      refine Or.inr ⟨rfl, fun hg => ?_⟩
      exact h2 (by rw [then_eq_gt_iff]; exact Or.inr ⟨hf, hg⟩)
  rcases h1' with h1' | ⟨h1e, h1g⟩
  · have hfac : f a c = Ordering.lt := by
      rcases h2' with h2' | ⟨h2e, _⟩
      · exact cmp_lt_of_lt_le hfs hft h1' (by simp [h2'])
      · exact cmp_lt_of_lt_le hfs hft h1' (by simp [h2e])
    rcases hgoal with hg | ⟨hg, _⟩ <;> simp [hfac] at hg
  · rcases h2' with h2' | ⟨h2e, h2g⟩
    · have hfac : f a c = Ordering.lt := cmp_lt_of_le_lt hfs hft (by simp [h1e]) h2'
      rcases hgoal with hg | ⟨hg, _⟩ <;> simp [hfac] at hg
    · have hfac : f a c = Ordering.eq := cmp_eq_trans hfs hft h1e h2e
      rcases hgoal with hg | ⟨_, hg⟩
      · simp [hfac] at hg
      · exact hgt a b c h1g h2g hg

theorem cmpSymm_comap {cmp : α → α → Ordering} (f : β → α) (h : CmpSymm cmp) :
    CmpSymm (fun a b => cmp (f a) (f b)) := fun a b => h (f a) (f b)

theorem cmpLeTrans_comap {cmp : α → α → Ordering} (f : β → α) (h : CmpLeTrans cmp) :
    CmpLeTrans (fun a b => cmp (f a) (f b)) := fun a b c => h (f a) (f b) (f c)

theorem natCompare_symm : CmpSymm (compare : Nat → Nat → Ordering) := by
  intro a b
  rcases Nat.lt_trichotomy a b with h | h | h
  · rw [Nat.compare_eq_lt.2 h, Nat.compare_eq_gt.2 h]; rfl
  · rw [h, Nat.compare_eq_eq.2 rfl]; rfl
  · rw [Nat.compare_eq_gt.2 h, Nat.compare_eq_lt.2 h]; rfl

theorem natCompare_letrans : CmpLeTrans (compare : Nat → Nat → Ordering) := by
  intro a b c h1 h2 h3
  rw [Nat.compare_eq_gt] at h3
  have hab : ¬ b < a := fun h => h1 (Nat.compare_eq_gt.2 h)
  have hbc : ¬ c < b := fun h => h2 (Nat.compare_eq_gt.2 h)
  omega

theorem charCmp_symm : CmpSymm charCmp := fun a b => natCompare_symm a.toNat b.toNat

theorem charCmp_letrans : CmpLeTrans charCmp :=
  fun a b c => natCompare_letrans a.toNat b.toNat c.toNat

theorem charCmp_eq_iff (a b : Char) : charCmp a b = Ordering.eq ↔ a = b := by
  unfold charCmp
  rw [Nat.compare_eq_eq]
  constructor
  · intro h
    exact Char.eq_of_val_eq (UInt32.toNat.inj h)
  · intro h; rw [h]

theorem lexCmp_symm : CmpSymm lexCmp := by
  intro a
  induction a with
  | nil => intro b; cases b <;> rfl
  | cons x xs ih =>
    intro b
    cases b with
    | nil => rfl
    | cons y ys =>
      show (charCmp x y).then (lexCmp xs ys) = ((charCmp y x).then (lexCmp ys xs)).swap
      rw [charCmp_symm x y, ih ys]
      cases charCmp y x <;> cases lexCmp ys xs <;> rfl

theorem lexCmp_eq_iff : ∀ a b : List Char, lexCmp a b = Ordering.eq ↔ a = b := by
  intro a
  induction a with
  | nil => intro b; cases b <;> simp [lexCmp]
  | cons x xs ih =>
    intro b
    cases b with
    | nil => simp [lexCmp]
    | cons y ys =>
      show (charCmp x y).then (lexCmp xs ys) = Ordering.eq ↔ _
      constructor
      · intro h
        cases hx : charCmp x y with
        | lt => rw [hx] at h; exact absurd h (by simp [Ordering.then])
        | gt => rw [hx] at h; exact absurd h (by simp [Ordering.then])
        | eq =>
          rw [hx] at h
          have hxy := (charCmp_eq_iff x y).1 hx
          have hys := (ih ys).1 h
          rw [hxy, hys]
      · intro h
        injection h with h1 h2
        rw [(charCmp_eq_iff x y).2 h1, ((ih ys).2 h2 : lexCmp xs ys = Ordering.eq)]
        rfl

theorem lexCmp_refl (a : List Char) : lexCmp a a = Ordering.eq := (lexCmp_eq_iff a a).2 rfl

theorem lexCmp_letrans : CmpLeTrans lexCmp := by
  intro a
  induction a with
  | nil =>
    intro b c _ _
    cases c with
    | nil => simp [lexCmp]
    | cons y ys => simp [lexCmp]
  | cons x xs ih =>
    intro b c h1 h2
    cases b with
    | nil => exact absurd rfl h1
    | cons y ys =>
      cases c with
      | nil => exact absurd rfl h2
      | cons z zs =>
        have h1' : charCmp x y = Ordering.lt ∨
            (charCmp x y = Ordering.eq ∧ lexCmp xs ys ≠ Ordering.gt) := by
          cases hx : charCmp x y with
          | lt => exact Or.inl rfl
          | gt =>
            exact absurd (show lexCmp (x :: xs) (y :: ys) = Ordering.gt by
              show (charCmp x y).then _ = _; rw [hx]; rfl) h1
          | eq =>
            refine Or.inr ⟨rfl, fun hg => ?_⟩
            exact h1 (show (charCmp x y).then _ = _ by rw [hx, hg]; rfl)
        have h2' : charCmp y z = Ordering.lt ∨
            (charCmp y z = Ordering.eq ∧ lexCmp ys zs ≠ Ordering.gt) := by
          cases hy : charCmp y z with
          | lt => exact Or.inl rfl
          | gt =>
            exact absurd (show lexCmp (y :: ys) (z :: zs) = Ordering.gt by
              show (charCmp y z).then _ = _; rw [hy]; rfl) h2
          | eq =>
            refine Or.inr ⟨rfl, fun hg => ?_⟩
            exact h2 (show (charCmp y z).then _ = _ by rw [hy, hg]; rfl)
        show (charCmp x z).then (lexCmp xs zs) ≠ Ordering.gt
        rcases h1' with h1' | ⟨h1e, h1t⟩
        · have hxz : charCmp x z = Ordering.lt := by
            rcases h2' with h2' | ⟨h2e, _⟩
            · exact cmp_lt_of_lt_le charCmp_symm charCmp_letrans h1' (by simp [h2'])
            · exact cmp_lt_of_lt_le charCmp_symm charCmp_letrans h1' (by simp [h2e])
          rw [hxz]; simp [Ordering.then]
        · rcases h2' with h2' | ⟨h2e, h2t⟩
          · have hxz : charCmp x z = Ordering.lt :=
              cmp_lt_of_le_lt charCmp_symm charCmp_letrans (by simp [h1e]) h2'
            rw [hxz]; simp [Ordering.then]
          · have hxz : charCmp x z = Ordering.eq :=
              cmp_eq_trans charCmp_symm charCmp_letrans h1e h2e
            rw [hxz]
            intro hg
            exact ih ys zs h1t h2t hg

theorem Ordering_then_swap (x y : Ordering) : (x.then y).swap = x.swap.then y.swap := by
  cases x <;> rfl

theorem dtCmp_symm : CmpSymm dtCmp := by
  intro a b
  unfold dtCmp
  simp only [Ordering_then_swap]
  rw [natCompare_symm a.year b.year, natCompare_symm a.month b.month,
    natCompare_symm a.day b.day, natCompare_symm a.hour b.hour,
    natCompare_symm a.minute b.minute, natCompare_symm a.second b.second]

theorem dtCmp_letrans : CmpLeTrans dtCmp := by
  have h5 : CmpLeTrans (fun a b : DateTime =>
      (compare a.minute b.minute).then (compare a.second b.second)) :=
    cmpLeTrans_then (cmpSymm_comap _ natCompare_symm)
      (cmpLeTrans_comap _ natCompare_letrans) (cmpLeTrans_comap _ natCompare_letrans)
  have h4 : CmpLeTrans (fun a b : DateTime =>
      (compare a.hour b.hour).then ((compare a.minute b.minute).then
        (compare a.second b.second))) :=
    cmpLeTrans_then (cmpSymm_comap _ natCompare_symm)
      (cmpLeTrans_comap _ natCompare_letrans) h5
  have h3 : CmpLeTrans (fun a b : DateTime =>
      (compare a.day b.day).then ((compare a.hour b.hour).then
        ((compare a.minute b.minute).then (compare a.second b.second)))) :=
    cmpLeTrans_then (cmpSymm_comap _ natCompare_symm)
      (cmpLeTrans_comap _ natCompare_letrans) h4
  have h2 : CmpLeTrans (fun a b : DateTime =>
      (compare a.month b.month).then ((compare a.day b.day).then
        ((compare a.hour b.hour).then ((compare a.minute b.minute).then
          (compare a.second b.second))))) :=
    cmpLeTrans_then (cmpSymm_comap _ natCompare_symm)
      (cmpLeTrans_comap _ natCompare_letrans) h3
  have h1 : CmpLeTrans (fun a b : DateTime =>
      (compare a.year b.year).then ((compare a.month b.month).then
        ((compare a.day b.day).then ((compare a.hour b.hour).then
          ((compare a.minute b.minute).then (compare a.second b.second)))))) :=
    cmpLeTrans_then (cmpSymm_comap _ natCompare_symm)
      (cmpLeTrans_comap _ natCompare_letrans) h2
  exact h1

theorem cmpVenta_symm : CmpSymm cmpVenta := by
  unfold cmpVenta
  exact cmpSymm_then (cmpSymm_comap _ dtCmp_symm) (cmpSymm_comap _ lexCmp_symm)

theorem cmpVenta_letrans : CmpLeTrans cmpVenta := by
  unfold cmpVenta
  exact cmpLeTrans_then (cmpSymm_comap _ dtCmp_symm) (cmpLeTrans_comap _ dtCmp_letrans)
    (cmpLeTrans_comap _ lexCmp_letrans)

theorem cmpBuscar_symm : CmpSymm cmpBuscar := by
  unfold cmpBuscar
  exact cmpSymm_then (cmpSymm_comap _ lexCmp_symm) (cmpSymm_comap _ lexCmp_symm)

theorem cmpBuscar_letrans : CmpLeTrans cmpBuscar := by
  unfold cmpBuscar
  exact cmpLeTrans_then (cmpSymm_comap _ lexCmp_symm) (cmpLeTrans_comap _ lexCmp_letrans)
    (cmpLeTrans_comap _ lexCmp_letrans)

theorem cmpBuscar_refl (a : String × Producto) : cmpBuscar a a = Ordering.eq := by
  unfold cmpBuscar
  rw [lexCmp_refl, lexCmp_refl]
  rfl

theorem buscarKeyLt_irrefl (a : String × Producto) : buscarKeyLt a a = false := by
  simp [buscarKeyLt, cmpBuscar_refl]

theorem buscarKeyLt_trans {a b c : String × Producto}
    (h1 : buscarKeyLt a b = true) (h2 : buscarKeyLt b c = true) : buscarKeyLt a c = true := by
  simp only [buscarKeyLt, decide_eq_true_eq] at h1 h2 ⊢
  exact cmp_lt_of_lt_le cmpBuscar_symm cmpBuscar_letrans h1 (by simp [h2])

theorem buscarKeyLt_of_le_lt {a b c : String × Producto}
    (h1 : buscarKeyLt a b = false) (h2 : buscarKeyLt a c = true) : buscarKeyLt b c = true := by
  simp only [buscarKeyLt, decide_eq_true_eq, decide_eq_false_iff_not] at h1 h2 ⊢
  have hba : cmpBuscar b a ≠ Ordering.gt := by
    intro hgt
    have hs := cmpBuscar_symm b a
    rw [hgt] at hs
    cases h : cmpBuscar a b with
    | lt => exact h1 h
    | eq => rw [h] at hs; exact absurd hs (by decide)
    | gt => rw [h] at hs; exact absurd hs (by decide)
  exact cmp_lt_of_le_lt cmpBuscar_symm cmpBuscar_letrans hba h2

/-! ## Sorting lemmas -/

theorem mem_insertSorted (le : α → α → Bool) (a x : α) (l : List α) :
    x ∈ insertSorted le a l ↔ x = a ∨ x ∈ l := by
  induction l with
  | nil => simp [insertSorted]
  | cons b bs ih =>
    simp only [insertSorted]
    split
    · simp [List.mem_cons]
    · simp only [List.mem_cons, ih]
      tauto

theorem mem_sortByLe (le : α → α → Bool) (x : α) (l : List α) :
    x ∈ sortByLe le l ↔ x ∈ l := by
  induction l with
  | nil => simp [sortByLe]
  | cons a as ih =>
    simp only [sortByLe, mem_insertSorted, ih, List.mem_cons]

theorem pairwise_insertSorted (le : α → α → Bool)
    (htot : ∀ a b, le a b = false → le b a = true)
    (htrans : ∀ a b c, le a b = true → le b c = true → le a c = true)
    (a : α) (l : List α) (h : l.Pairwise (fun x y => le x y = true)) :
    (insertSorted le a l).Pairwise (fun x y => le x y = true) := by
  induction l with
  | nil => simp [insertSorted]
  | cons b bs ih =>
    rw [List.pairwise_cons] at h
    simp only [insertSorted]
    split
    case isTrue hle =>
      rw [List.pairwise_cons]
      refine ⟨?_, List.pairwise_cons.2 h⟩
      intro x hx
      rcases List.mem_cons.1 hx with rfl | hx
      · exact hle
      · exact htrans a b x hle (h.1 x hx)
    case isFalse hle =>
      rw [List.pairwise_cons]
      refine ⟨?_, ih h.2⟩
      intro x hx
      rcases (mem_insertSorted le a x bs).1 hx with hxa | hx
      · rw [hxa]; exact htot a b (by simpa using hle)
      · exact h.1 x hx

theorem pairwise_sortByLe (le : α → α → Bool)
    (htot : ∀ a b, le a b = false → le b a = true)
    (htrans : ∀ a b c, le a b = true → le b c = true → le a c = true)
    (l : List α) : (sortByLe le l).Pairwise (fun x y => le x y = true) := by
  induction l with
  | nil => simp [sortByLe]
  | cons a as ih => exact pairwise_insertSorted le htot htrans a _ ih

theorem ventaDescLe_total (a b : String × VentaDoc) :
    ventaDescLe a b = false → ventaDescLe b a = true := by
  simp only [ventaDescLe, decide_eq_true_eq, decide_eq_false_iff_not, not_not]
  intro h hcontra
  have hs := cmpVenta_symm a b
  rw [h, hcontra] at hs
  exact absurd hs (by decide)

theorem ventaDescLe_trans (a b c : String × VentaDoc) :
    ventaDescLe a b = true → ventaDescLe b c = true → ventaDescLe a c = true := by
  simp only [ventaDescLe, decide_eq_true_eq]
  intro h1 h2
  exact cmpVenta_letrans c b a h2 h1

/-! ## Collection lemmas -/

theorem getDoc_cons (k : String) (v : α) (rest : List (String × α)) (id : String) :
    getDoc ((k, v) :: rest) id = if k = id then some v else getDoc rest id := by
  by_cases h : k = id
  · simp [getDoc, List.find?_cons_of_pos, h]
  · simp [getDoc, List.find?_cons_of_neg, h]

theorem getDoc_updateDoc_self (col : List (String × α)) (id : String) (f : α → α) :
    getDoc (updateDoc col id f) id = (getDoc col id).map f := by
  induction col with
  | nil => rfl
  | cons d rest ih =>
    obtain ⟨k, v⟩ := d
    simp only [updateDoc]
    by_cases h : k = id
    · simp [h, getDoc_cons]
    · simp [h, getDoc_cons, ih]

theorem getDoc_updateDoc_ne (col : List (String × α)) (id k : String) (f : α → α)
    (h : k ≠ id) : getDoc (updateDoc col id f) k = getDoc col k := by
  induction col with
  | nil => rfl
  | cons d rest ih =>
    obtain ⟨k0, v⟩ := d
    simp only [updateDoc]
    by_cases h0 : k0 = id
    · have hk0k : ¬ k0 = k := fun he => h (he ▸ h0)
      rw [if_pos h0, getDoc_cons, getDoc_cons, if_neg hk0k, if_neg hk0k]
    · rw [if_neg h0, getDoc_cons, getDoc_cons]
      by_cases h1 : k0 = k
      · rw [if_pos h1, if_pos h1]
      · rw [if_neg h1, if_neg h1, ih]

theorem applyBatch_getDoc_not_mem (col : List (String × Producto))
    (batch : List (String × Int)) (id : String) (h : id ∉ batch.map Prod.fst) :
    getDoc (applyBatch col batch) id = getDoc col id := by
  induction batch generalizing col with
  | nil => rfl
  | cons u rest ih =>
    simp only [List.map_cons, List.mem_cons] at h
    push_neg at h
    simp only [applyBatch]
    rw [ih _ (by simpa using h.2), getDoc_updateDoc_ne _ _ _ _ h.1]

theorem applyBatch_getDoc_mem (col : List (String × Producto))
    (batch : List (String × Int)) (id : String) (v : Int)
    (hnd : (batch.map Prod.fst).Nodup) (hmem : (id, v) ∈ batch) :
    getDoc (applyBatch col batch) id =
      (getDoc col id).map (fun p => { p with stock := some v }) := by
  induction batch generalizing col with
  | nil => cases hmem
  | cons u rest ih =>
    simp only [List.map_cons, List.nodup_cons] at hnd
    simp only [applyBatch]
    rcases List.mem_cons.1 hmem with heq | hmem'
    · rw [← heq]
      rw [← heq] at hnd
      rw [applyBatch_getDoc_not_mem _ _ _ hnd.1, getDoc_updateDoc_self]
    · have hne : u.1 ≠ id := by
        intro h
        exact hnd.1 (h ▸ List.mem_map.2 ⟨(id, v), hmem', rfl⟩)
      rw [ih _ hnd.2 hmem', getDoc_updateDoc_ne _ _ _ _ (fun he => hne he.symm)]

theorem setDoc_fresh (col : List (String × α)) (id : String) (v : α)
    (h : getDoc col id = none) : setDoc col id v = col ++ [(id, v)] := by
  unfold setDoc
  rw [if_neg]
  intro hs
  rw [getDoc, Option.map_eq_none'] at h
  rw [h] at hs
  exact Bool.noConfusion hs

/-! ## Sale validation loop lemmas -/

theorem ventaBatch_ok (db : DB) (items : List ItemVenta)
    (h : ∀ it ∈ items, ∃ p, getDoc db.productos it.id = some p ∧
      it.cantidad.getD 0 ≤ p.stock.getD 0) :
    ventaBatch db items = Except.ok
      (items.map (fun it => (it.id, stockLeido db it.id - it.cantidad.getD 0))) := by
  induction items with
  | nil => rfl
  | cons it rest ih =>
    obtain ⟨p, hp, hle⟩ := h it (List.mem_cons_self it rest)
    have hnotlt : ¬ (p.stock.getD 0 < it.cantidad.getD 0) := by omega
    simp only [ventaBatch, hp, if_neg hnotlt,
      ih (fun x hx => h x (List.mem_cons_of_mem _ hx)), List.map_cons]
    simp [stockLeido, hp]

theorem ventaBatch_insuficiente (db : DB) (items : List ItemVenta)
    (hall : ∀ it ∈ items, (getDoc db.productos it.id).isSome) (it0 : ItemVenta)
    (hfind : items.find? (lineaInsuficiente db) = some it0) :
    ∃ p, getDoc db.productos it0.id = some p ∧
      ventaBatch db items = Except.error
        (VentaResult.stockInsuficiente (p.nombre.getD "(sin nombre)")) := by
  induction items with
  | nil => cases hfind
  | cons it rest ih =>
    by_cases hbad : lineaInsuficiente db it = true
    · rw [List.find?_cons_of_pos _ hbad] at hfind
      injection hfind with hfind
      obtain ⟨p, hp⟩ := Option.isSome_iff_exists.1 (hall it (List.mem_cons_self it rest))
      have hlt : p.stock.getD 0 < it.cantidad.getD 0 := by
        have := of_decide_eq_true hbad
        rwa [stockLeido, hp] at this
      refine ⟨p, by rw [← hfind]; exact hp, ?_⟩
      simp only [ventaBatch, hp, if_pos hlt]
    · rw [List.find?_cons_of_neg _ hbad] at hfind
      obtain ⟨p, hp, hvb⟩ := ih (fun x hx => hall x (List.mem_cons_of_mem _ hx)) hfind
      obtain ⟨q, hq⟩ := Option.isSome_iff_exists.1 (hall it (List.mem_cons_self it rest))
      have hnotlt : ¬ (q.stock.getD 0 < it.cantidad.getD 0) := by
        have := of_decide_eq_false (by rwa [Bool.not_eq_true] at hbad)
        rwa [stockLeido, hq] at this
      refine ⟨p, hp, ?_⟩
      simp only [ventaBatch, hq, if_neg hnotlt, hvb]

theorem registrar_venta_cases (db : DB) (newId : String) (now : DateTime)
    (items : List ItemVenta) (total? : Option ℚ) :
    (registrar_venta db newId now items total?).2 = VentaResult.ok ∨
    (registrar_venta db newId now items total?).1 = db := by
  unfold registrar_venta
  simp only
  split
  · exact Or.inr rfl
  · split
    · exact Or.inr rfl
    · exact Or.inl rfl

/-! ## Range scan lemmas -/

theorem buscarFold_none_iff (ql : List Char) (l : List (String × Producto)) :
    ∀ acc, List.foldl (buscarStep ql) acc l = none ↔
      (acc = none ∧ ∀ d ∈ l, enRango ql d = false) := by
  induction l with
  | nil => intro acc; simp
  | cons d l ih =>
    intro acc
    rw [List.foldl_cons, ih]
    constructor
    · rintro ⟨hstep, hrest⟩
      by_cases hd : enRango ql d = true
      · exfalso
        cases acc with
        | none => simp [buscarStep, hd] at hstep
        | some b =>
          simp only [buscarStep, hd, if_true] at hstep
          split at hstep <;> cases hstep
      · have hacc : acc = none := by
          unfold buscarStep at hstep
          rw [if_neg (by simp [hd])] at hstep
          exact hstep
        refine ⟨hacc, fun e he => ?_⟩
        rcases List.mem_cons.1 he with rfl | he'
        · simpa using hd
        · exact hrest e he'
    · rintro ⟨hacc, hall⟩
      have hd := hall d (List.mem_cons_self d l)
      refine ⟨?_, fun e he => hall e (List.mem_cons_of_mem _ he)⟩
      rw [hacc]
      unfold buscarStep
      rw [if_neg (by simp [hd])]

theorem buscarFold_mem (ql : List Char) (l : List (String × Producto)) :
    ∀ acc r, List.foldl (buscarStep ql) acc l = some r →
      acc = some r ∨ (r ∈ l ∧ enRango ql r = true) := by
  induction l with
  | nil => intro acc r h; exact Or.inl h
  | cons d l ih =>
    intro acc r h
    rw [List.foldl_cons] at h
    rcases ih _ r h with hstep | ⟨hm, hr⟩
    · by_cases hd : enRango ql d = true
      · cases acc with
        | none =>
          simp only [buscarStep, hd, if_true] at hstep
          injection hstep with hstep
          exact Or.inr ⟨by rw [← hstep]; exact List.mem_cons_self d l, by rw [← hstep]; exact hd⟩
        | some b =>
          simp only [buscarStep, hd, if_true] at hstep
          split at hstep
          · injection hstep with hstep
            exact Or.inr ⟨by rw [← hstep]; exact List.mem_cons_self d l, by rw [← hstep]; exact hd⟩
          · exact Or.inl hstep
      · unfold buscarStep at hstep
        rw [if_neg (by simp [hd])] at hstep
        exact Or.inl hstep
    · exact Or.inr ⟨List.mem_cons_of_mem _ hm, hr⟩

theorem buscarFold_min (ql : List Char) (l : List (String × Producto)) :
    ∀ acc r, List.foldl (buscarStep ql) acc l = some r →
      (∀ b, acc = some b → buscarKeyLt b r = false) ∧
      (∀ d ∈ l, enRango ql d = true → buscarKeyLt d r = false) := by
  induction l with
  | nil =>
    intro acc r h
    refine ⟨fun b hb => ?_, fun d hd => absurd hd (List.not_mem_nil d)⟩
    rw [hb] at h
    injection h with h
    rw [h]
    exact buscarKeyLt_irrefl r
  | cons d l ih =>
    intro acc r h
    rw [List.foldl_cons] at h
    obtain ⟨hacc', hl⟩ := ih _ r h
    have hstepfacts : ∀ x, buscarStep ql acc d = some x → buscarKeyLt x r = false :=
      fun x hx => hacc' x hx
    constructor
    · intro b hb
      by_cases hd : enRango ql d = true
      · by_cases hdb : buscarKeyLt d b = true
        · have h1 : buscarKeyLt d r = false := by
            apply hstepfacts
            rw [hb]
            unfold buscarStep
            rw [if_pos hd]
            simp [hdb]
          by_contra hbr
          rw [Bool.not_eq_false] at hbr
          exact absurd (buscarKeyLt_trans hdb hbr) (by simp [h1])
        · apply hstepfacts
          rw [hb]
          unfold buscarStep
          rw [if_pos hd]
          simp [hdb]
      · apply hstepfacts
        rw [hb]
        unfold buscarStep
        rw [if_neg (by simp [hd])]
    · intro e he hre
      rcases List.mem_cons.1 he with rfl | he'
      · cases hacc : acc with
        | none =>
          apply hstepfacts
          rw [hacc]
          unfold buscarStep
          rw [if_pos hre]
        | some b =>
          by_cases hdb : buscarKeyLt e b = true
          · apply hstepfacts
            rw [hacc]
            unfold buscarStep
            rw [if_pos hre]
            simp [hdb]
          · have hbmin : buscarKeyLt b r = false := by
              apply hstepfacts
              rw [hacc]
              unfold buscarStep
              rw [if_pos hre]
              simp [hdb]
            by_contra her
            rw [Bool.not_eq_false] at her
            have : buscarKeyLt b r = true :=
              buscarKeyLt_of_le_lt (by simpa using hdb) her
            rw [this] at hbmin
            cases hbmin
      · exact hl e he' hre

/-- A string lying between a query and the query followed by the U+F8FF
sentinel (both inclusive) starts with the query. -/
theorem startsWith_of_range : ∀ ql s : List Char,
    lexLe ql s = true → lexLe s (ql ++ ['\uF8FF']) = true → startsWith ql s = true := by
  intro ql
  induction ql with
  | nil => intro s _ _; rfl
  | cons c cs ih =>
    intro s h1 h2
    cases s with
    | nil => exact absurd h1 (by simp [lexLe, lexCmp])
    | cons d ds =>
      simp only [lexLe, decide_eq_true_eq] at h1 h2
      have h1' : (charCmp c d).then (lexCmp cs ds) ≠ Ordering.gt := h1
      have h2' : (charCmp d c).then (lexCmp ds (cs ++ [''])) ≠ Ordering.gt := h2
      cases hc : charCmp c d with
      | lt =>
        exfalso
        have hdc : charCmp d c = Ordering.gt := by
          have hs := charCmp_symm c d
          rw [hc] at hs
          cases hdc : charCmp d c <;> rw [hdc] at hs <;> first | rfl | exact absurd hs (by decide)
        rw [hdc] at h2'
        exact h2' rfl
      | gt => rw [hc] at h1'; exact absurd rfl h1'
      | eq =>
        have hcd : c = d := (charCmp_eq_iff c d).1 hc
        have hdc : charCmp d c = Ordering.eq := (charCmp_eq_iff d c).2 hcd.symm
        rw [hc] at h1'
        rw [hdc] at h2'
        simp only [startsWith, hcd, decide_true_eq_true, Bool.true_and]
        exact ih ds (by simpa [lexLe] using h1') (by simpa [lexLe] using h2')

/-- Membership in the scan range makes the lowercased query a prefix of the
stored nombre_lower. -/
theorem enRango_startsWith (ql : List Char) (d : String × Producto)
    (h : enRango ql d = true) :
    ∃ s, d.2.nombre_lower = some s ∧ startsWith ql s.data = true := by
  unfold enRango at h
  cases hnl : d.2.nombre_lower with
  | none => rw [hnl] at h; cases h
  | some s =>
    rw [hnl] at h
    rw [Bool.and_eq_true] at h
    exact ⟨s, rfl, startsWith_of_range ql s.data h.1 h.2⟩

/-- The nombre_lower of the scan result is lexicographically least among the
in-range documents. -/
theorem lexLe_of_not_buscarKeyLt (a b : String × Producto)
    (h : buscarKeyLt b a = false) :
    lexLe ((a.2.nombre_lower.getD "").data) ((b.2.nombre_lower.getD "").data) = true := by
  simp only [buscarKeyLt, decide_eq_false_iff_not] at h
  simp only [lexLe, decide_eq_true_eq]
  unfold cmpBuscar at h
  cases hn : lexCmp ((b.2.nombre_lower.getD "").data) ((a.2.nombre_lower.getD "").data) with
  | lt => exact absurd (by rw [hn]; rfl) h
  | eq =>
    have := (lexCmp_eq_iff _ _).1 hn
    rw [this, lexCmp_refl]
    exact fun hx => Ordering.noConfusion hx
  | gt =>
    have hs := lexCmp_symm ((a.2.nombre_lower.getD "").data) ((b.2.nombre_lower.getD "").data)
    rw [hn] at hs
    rw [hs]
    exact fun hx => Ordering.noConfusion hx

/-! ## Claim theorems -/

/-- C1, counterexample to the claim as stated: a sale whose two lines reference
the same product (each within stock) commits, but each batch update was
computed against the pre-commit stock, so the final stock is 5 - 2 = 3 from
the last update, not the 5 - 2 - 2 = 1 that per-line decrements would give. -/
theorem C1_counterexample :
    (registrar_venta dbAgua "v1" {} [⟨"p1", some 2⟩, ⟨"p1", some 2⟩] (some 20)).2 =
      VentaResult.ok ∧
    getDoc (registrar_venta dbAgua "v1" {} [⟨"p1", some 2⟩, ⟨"p1", some 2⟩]
        (some 20)).1.productos "p1" = some { nombre := some "Agua", stock := some 3 } ∧
    ¬ getDoc (registrar_venta dbAgua "v1" {} [⟨"p1", some 2⟩, ⟨"p1", some 2⟩]
        (some 20)).1.productos "p1" =
      some { nombre := some "Agua", stock := some ((5 : Int) - 2 - 2) } := by
  decide

/-- C1 (amended): for every non-empty list of sale line items with pairwise
distinct product ids, in which every referenced product exists and no line
quantity exceeds that product stock, register_sale commits: the response is ok,
each referenced product ends with its read stock minus its line quantity,
every other product is untouched, and exactly one new sale record is appended
carrying the submitted items, the submitted total (0 when absent, not
recomputed) and the server timestamp.  (With duplicate ids the updates
overwrite one another and the last line wins, as the counterexample shows.) -/
theorem C1_theorem (db : DB) (newId : String) (now : DateTime)
    (items : List ItemVenta) (total? : Option ℚ)
    (hne : items ≠ [])
    (hnd : (items.map ItemVenta.id).Nodup)
    (hex : ∀ it ∈ items, (getDoc db.productos it.id).isSome = true)
    (hok : ∀ it ∈ items, it.cantidad.getD 0 ≤ stockLeido db it.id)
    (hfresh : getDoc db.ventas newId = none) :
    (registrar_venta db newId now items total?).2 = VentaResult.ok ∧
    (∀ it ∈ items, getDoc (registrar_venta db newId now items total?).1.productos it.id =
      (getDoc db.productos it.id).map (fun p =>
        { p with stock := some (stockLeido db it.id - it.cantidad.getD 0) })) ∧
    (∀ id, id ∉ items.map ItemVenta.id →
      getDoc (registrar_venta db newId now items total?).1.productos id =
        getDoc db.productos id) ∧
    (registrar_venta db newId now items total?).1.ventas =
      db.ventas ++ [(newId, { items := items, total := some (total?.getD 0),
                              ts := some now })] := by
  have hokx : ∀ it ∈ items, ∃ p, getDoc db.productos it.id = some p ∧
      it.cantidad.getD 0 ≤ p.stock.getD 0 := by
    intro it hit
    obtain ⟨p, hp⟩ := Option.isSome_iff_exists.1 (hex it hit)
    refine ⟨p, hp, ?_⟩
    have h := hok it hit
    unfold stockLeido at h
    rwa [hp] at h
  have hbatch := ventaBatch_ok db items hokx
  have hempty : items.isEmpty = false := by
    cases items with
    | nil => exact absurd rfl hne
    | cons a as => rfl
  have hkeys : ((items.map (fun it => (it.id, stockLeido db it.id - it.cantidad.getD 0))).map
      Prod.fst) = items.map ItemVenta.id := by
    rw [List.map_map]; rfl
  have hreg : registrar_venta db newId now items total? =
      ({ productos := applyBatch db.productos
           (items.map (fun it => (it.id, stockLeido db it.id - it.cantidad.getD 0))),
         ventas := setDoc db.ventas newId
           { items := items, total := some (total?.getD 0), ts := some now } },
       VentaResult.ok) := by
    unfold registrar_venta
    rw [hbatch]
    simp [hempty]
  rw [hreg]
  refine ⟨rfl, ?_, ?_, ?_⟩
  · intro it hit
    have hmem : (it.id, stockLeido db it.id - it.cantidad.getD 0) ∈
        items.map (fun it => (it.id, stockLeido db it.id - it.cantidad.getD 0)) :=
      List.mem_map.2 ⟨it, hit, rfl⟩
    exact applyBatch_getDoc_mem _ _ _ _ (by rw [hkeys]; exact hnd) hmem
  · intro id hid
    exact applyBatch_getDoc_not_mem _ _ _ (by rw [hkeys]; exact hid)
  · exact setDoc_fresh db.ventas newId _ hfresh

/-- C1, witness: the spec example, selling 3 units against stock 5 leaves
stock 2. -/
theorem C1_witness :
    (([⟨"p1", some 3⟩] : List ItemVenta) ≠ []) ∧
    (registrar_venta dbAgua "v1" {} [⟨"p1", some 3⟩] (some 10)).2 = VentaResult.ok ∧
    getDoc (registrar_venta dbAgua "v1" {} [⟨"p1", some 3⟩] (some 10)).1.productos "p1" =
      some { nombre := some "Agua", stock := some 2 } := by
  refine ⟨by decide, ?_, ?_⟩
  · exact (C1_theorem dbAgua "v1" {} [⟨"p1", some 3⟩] (some 10) (by decide) (by decide)
      (by decide) (by decide) (by decide)).1
  · exact ((C1_theorem dbAgua "v1" {} [⟨"p1", some 3⟩] (some 10) (by decide) (by decide)
      (by decide) (by decide) (by decide)).2.1 ⟨"p1", some 3⟩ (by decide)).trans (by decide)

/-- C2, counterexample to the claim as stated: a request containing a line
whose quantity exceeds the product stock is rejected with the missing-product
message, not InsufficientStockError, when a line with an unknown id precedes
it. -/
theorem C2_counterexample :
    (∃ it ∈ ([⟨"ghost", some 1⟩, ⟨"p1", some 99⟩] : List ItemVenta),
      stockLeido dbAgua it.id < it.cantidad.getD 0 ∧
        (getDoc dbAgua.productos it.id).isSome = true) ∧
    registrar_venta dbAgua "v1" {} [⟨"ghost", some 1⟩, ⟨"p1", some 99⟩] none =
      (dbAgua, VentaResult.productoNoExiste "ghost") ∧
    ∀ n, VentaResult.productoNoExiste "ghost" ≠ VentaResult.stockInsuficiente n := by
  refine ⟨by decide, by decide, fun n h => VentaResult.noConfusion h⟩

/-- C2 (amended): every rejection of register_sale happens before the batch
commit and leaves the database unchanged (this covers the empty cart, the
missing product and the insufficient stock rejections); and when every
referenced product exists, a request whose first failing line exceeds its
product stock is answered with InsufficientStockError naming that product,
again with the database unchanged. -/
theorem C2_theorem :
    (∀ (db : DB) (newId : String) (now : DateTime) (items : List ItemVenta)
        (total? : Option ℚ),
      (registrar_venta db newId now items total?).2 ≠ VentaResult.ok →
      (registrar_venta db newId now items total?).1 = db) ∧
    (∀ (db : DB) (newId : String) (now : DateTime) (items : List ItemVenta)
        (total? : Option ℚ) (it0 : ItemVenta),
      (∀ it ∈ items, (getDoc db.productos it.id).isSome = true) →
      items.find? (lineaInsuficiente db) = some it0 →
      ∃ p, getDoc db.productos it0.id = some p ∧
        registrar_venta db newId now items total? =
          (db, VentaResult.stockInsuficiente (p.nombre.getD "(sin nombre)"))) := by
  constructor
  · intro db newId now items total? h
    exact (registrar_venta_cases db newId now items total?).resolve_left h
  · intro db newId now items total? it0 hall hfind
    obtain ⟨p, hp, hvb⟩ := ventaBatch_insuficiente db items hall it0 hfind
    have hmem := List.mem_of_find?_eq_some hfind
    have hempty : items.isEmpty = false := by
      cases items with
      | nil => cases hmem
      | cons a as => rfl
    refine ⟨p, hp, ?_⟩
    unfold registrar_venta
    rw [hvb]
    simp [hempty]

/-- C2, witness: the spec example, a single over-stock line is rejected with
InsufficientStockError naming the product and the state is unchanged. -/
theorem C2_witness :
    (∀ it ∈ ([⟨"p1", some 99⟩] : List ItemVenta),
      (getDoc dbAgua.productos it.id).isSome = true) ∧
    ([⟨"p1", some 99⟩] : List ItemVenta).find? (lineaInsuficiente dbAgua) =
      some ⟨"p1", some 99⟩ ∧
    (∃ p, getDoc dbAgua.productos "p1" = some p ∧
      registrar_venta dbAgua "v2" {} [⟨"p1", some 99⟩] none =
        (dbAgua, VentaResult.stockInsuficiente (p.nombre.getD "(sin nombre)"))) :=
  ⟨by decide, by decide,
    C2_theorem.2 dbAgua "v2" {} [⟨"p1", some 99⟩] none ⟨"p1", some 99⟩
      (by decide) (by decide)⟩

/-- C3: the panel form create (POST /panel/productos/nuevo) writes NO
nombre_lower field, violating the invariant the claim states; the API create
of the same submission does derive it.  The scripts/backfill_nombre_lower.py
script exists precisely to repair such documents, and the search route orders
on nombre_lower, so the panel-created products are unfindable by name: the
code, not the claim, is at fault. -/
theorem C3_theorem :
    nuevo_producto_form {} "nid" (some "Coca Cola") (some "10") (some "5") =
      ({ productos := [("nid", { nombre := some "Coca Cola", nombre_lower := none,
                                 precio := some (mkRat 10 1), stock := some 5 })] },
       FormCreateResult.created) ∧
    pyLower (pyStrip "Coca Cola") = "coca cola" ∧
    api_productos_post {} "nid2" (some "Coca Cola") (some "10") (some "5") =
      ({ productos := [("nid2", { nombre := some "Coca Cola",
                                  nombre_lower := some "coca cola",
                                  precio := some (mkRat 10 1), stock := some 5 })] },
       ApiCreateResult.redirectPanel) := by
  decide

/-- C5, counterexample to the claim as stated: POST /api/productos is a
catalog create, is not one of the two stated exceptions, and carries no
login_required decorator, so creating a product is possible without a
session. -/
theorem C5_counterexample :
    (⟨"POST", "/api/productos", "productos", false⟩ : Route) ∈ routes ∧
    claimProtectedC5 ⟨"POST", "/api/productos", "productos", false⟩ = true ∧
    (⟨"POST", "/api/productos", "productos", false⟩ : Route).gated = false := by
  decide

/-- C5 (amended): every catalog operation, sale reporting view and panel view
carries the session gate, with the exceptions of the public catalog JSON read,
the sale registration endpoint, the programmatic create POST /api/productos
and the search endpoint GET /api/buscar_producto. -/
theorem C5_theorem : ∀ r ∈ routes,
    ((isCatalogOp r || isSaleReporting r || isPanelView r) && !(exentoReal r)) = true →
    r.gated = true := by
  decide

/-- C5, witness: the panel product listing is gated. -/
theorem C5_witness :
    (⟨"GET", "/panel/productos", "panel_productos", true⟩ : Route) ∈ routes ∧
    ((isCatalogOp ⟨"GET", "/panel/productos", "panel_productos", true⟩ ||
      isSaleReporting ⟨"GET", "/panel/productos", "panel_productos", true⟩ ||
      isPanelView ⟨"GET", "/panel/productos", "panel_productos", true⟩) &&
      !(exentoReal ⟨"GET", "/panel/productos", "panel_productos", true⟩)) = true ∧
    (⟨"GET", "/panel/productos", "panel_productos", true⟩ : Route).gated = true :=
  ⟨by decide, by decide,
    C5_theorem ⟨"GET", "/panel/productos", "panel_productos", true⟩ (by decide) (by decide)⟩

/-- C6: updating a nonexistent product id with a valid form reaches
doc_ref.update, whose NotFound exception no handler catches: the route
surfaces the generic fault page instead of the user-facing message the claim
requires.  No document is created or modified (the state is returned
unchanged).  The GET branch of the same handler and the delete route both
handle the missing id gracefully, so the POST branch is a slip of the code. -/
theorem C6_theorem :
    editar_producto_form { productos := [("p1", { nombre := some "A" })] } "ghost"
        (some "X") (some "1") (some "1") =
      ({ productos := [("p1", { nombre := some "A" })] },
       EditFormResult.uncaughtNotFound) ∧
    erroresEditar (pyStrip "X") (formPrecio (some "1")) (formStock (some "1")) = [] := by
  decide

/-- C10, counterexample to the claim as stated: stock can be negative (the
unvalidated API create accepts stock=-5), and then a line with the
non-positive cantidad -3 FAILS the stock check, because -5 < -3. -/
theorem C10_counterexample :
    ((-3 : Int) ≤ 0) ∧
    (getDoc dbAguaNegativa.productos "p1").isSome = true ∧
    registrar_venta dbAguaNegativa "v1" {} [⟨"p1", some (-3)⟩] none =
      (dbAguaNegativa, VentaResult.stockInsuficiente "Agua") ∧
    api_productos_post {} "p1" (some "Agua") (some "0") (some "-5") =
      ({ productos := [("p1", { nombre := some "Agua", nombre_lower := some "agua",
                                precio := some 0, stock := some (-5) })] },
       ApiCreateResult.redirectPanel) := by
  decide

/-- C10 (amended): register_sale imposes no lower bound on a line quantity:
for every existing product whose read stock is at least the quantity — in
particular every product with non-negative stock and any cantidad at most 0 —
the line passes the check, the sale commits, and the stock becomes
stock - cantidad, so a strictly negative quantity strictly increases stock. -/
theorem C10_theorem (db : DB) (newId : String) (now : DateTime) (id : String)
    (cant : Int) (total? : Option ℚ) (p : Producto)
    (hp : getDoc db.productos id = some p)
    (hnp : cant ≤ 0)
    (hle : cant ≤ p.stock.getD 0) :
    (registrar_venta db newId now [⟨id, some cant⟩] total?).2 = VentaResult.ok ∧
    getDoc (registrar_venta db newId now [⟨id, some cant⟩] total?).1.productos id =
      some { p with stock := some (p.stock.getD 0 - cant) } ∧
    (cant < 0 → p.stock.getD 0 < p.stock.getD 0 - cant) := by
  have hbatch : ventaBatch db [⟨id, some cant⟩] =
      Except.ok [(id, p.stock.getD 0 - cant)] := by
    simp only [ventaBatch, hp, Option.getD_some]
    rw [if_neg (by omega)]
  have hreg : registrar_venta db newId now [⟨id, some cant⟩] total? =
      ({ productos := applyBatch db.productos [(id, p.stock.getD 0 - cant)],
         ventas := setDoc db.ventas newId
           { items := [⟨id, some cant⟩], total := some (total?.getD 0), ts := some now } },
       VentaResult.ok) := by
    unfold registrar_venta
    rw [hbatch]
    simp
  rw [hreg]
  refine ⟨rfl, ?_, fun h => by omega⟩
  show getDoc (applyBatch db.productos [(id, p.stock.getD 0 - cant)]) id = _
  simp only [applyBatch]
  rw [getDoc_updateDoc_self, hp]
  rfl

/-- C10, witness: cantidad -3 against stock 5 commits and raises the stock
to 8. -/
theorem C10_witness :
    getDoc dbAgua.productos "p1" = some { nombre := some "Agua", stock := some 5 } ∧
    ((-3 : Int) ≤ 0) ∧
    ((registrar_venta dbAgua "v1" {} [⟨"p1", some (-3)⟩] none).2 = VentaResult.ok ∧
     getDoc (registrar_venta dbAgua "v1" {} [⟨"p1", some (-3)⟩] none).1.productos "p1" =
       some { nombre := some "Agua", stock := some 8 } ∧
     ((-3 : Int) < 0 → (5 : Int) < 8)) := by
  refine ⟨by decide, by decide, ?_⟩
  have h := C10_theorem dbAgua "v1" {} "p1" (-3) none
    { nombre := some "Agua", stock := some 5 } (by decide) (by decide) (by decide)
  exact ⟨h.1, h.2.1.trans (by decide), fun _ => by omega⟩

/-- C9: login failures are classified in order — NotFoundError when no
credential document exists under the trimmed, lowercased email;
InactiveAccountError when the stored activo flag is false, regardless of the
hash check (so a deactivated account is rejected even with a correct
password); InvalidCredentialsError when the account is active but the hash
does not match. -/
theorem C9_theorem :
    (∀ (usuarios : List (String × UsuarioDoc)) (checkHash : String → String → Bool)
        (email? pass? : Option String),
      usuarios.find? (fun d => d.1 = pyLower (pyStrip (email?.getD ""))) = none →
      login_route usuarios checkHash email? pass? = LoginResult.notFound) ∧
    (∀ (usuarios : List (String × UsuarioDoc)) (checkHash : String → String → Bool)
        (email? pass? : Option String) (d : String × UsuarioDoc),
      usuarios.find? (fun x => x.1 = pyLower (pyStrip (email?.getD ""))) = some d →
      d.2.activo.getD true = false →
      login_route usuarios checkHash email? pass? = LoginResult.inactive) ∧
    (∀ (usuarios : List (String × UsuarioDoc)) (checkHash : String → String → Bool)
        (email? pass? : Option String) (d : String × UsuarioDoc),
      usuarios.find? (fun x => x.1 = pyLower (pyStrip (email?.getD ""))) = some d →
      d.2.activo.getD true = true →
      checkHash (d.2.password_hash.getD "") (pass?.getD "") = false →
      login_route usuarios checkHash email? pass? = LoginResult.invalidCredentials) := by
  refine ⟨?_, ?_, ?_⟩
  · intro usuarios checkHash email? pass? hfind
    simp only [login_route]
    rw [hfind]
  · intro usuarios checkHash email? pass? d hfind hact
    simp only [login_route]
    rw [hfind]
    simp [hact]
  · intro usuarios checkHash email? pass? d hfind hact hhash
    simp only [login_route]
    rw [hfind]
    simp [hact, hhash]

/-- C9, witness: the deactivated account is rejected as inactive even though
the supplied hash checker accepts every password. -/
theorem C9_witness :
    usuariosInactivo.find? (fun x => x.1 = pyLower (pyStrip ((some " A@B.C ").getD ""))) =
      some ("a@b.c", { email := some "a@b.c", password_hash := some "H",
                       rol := some "admin", activo := some false }) ∧
    (({ email := some "a@b.c", password_hash := some "H", rol := some "admin",
        activo := some false } : UsuarioDoc).activo.getD true = false) ∧
    login_route usuariosInactivo (fun _ _ => true) (some " A@B.C ") (some "secreta") =
      LoginResult.inactive :=
  ⟨by decide, by decide,
    C9_theorem.2.1 usuariosInactivo (fun _ _ => true) (some " A@B.C ") (some "secreta")
      ("a@b.c", { email := some "a@b.c", password_hash := some "H", rol := some "admin",
                  activo := some false })
      (by decide) (by decide)⟩

/-- C4, counterexample to the claim as stated: the programmatic create entry
point POST /api/productos accepts an empty name, a negative price and a
negative stock, writing the product instead of failing with ValidationError. -/
theorem C4_counterexample :
    pyStrip "" = "" ∧
    pyFloat "-5" = some (mkRat (-5) 1) ∧ (mkRat (-5) 1 < 0) ∧ ((-3 : Int) < 0) ∧
    api_productos_post {} "nid" (some "") (some "-5") (some "-3") =
      ({ productos := [("nid", { nombre := some "", nombre_lower := some "",
                                 precio := some (mkRat (-5) 1), stock := some (-3) })] },
       ApiCreateResult.redirectPanel) := by
  decide

/-- Characterization of the create form flash list: empty exactly when the
trimmed name is non-empty and both numbers parse non-negative. -/
theorem erroresNuevo_nil_iff (nombre : String) (precioR : Option ℚ) (stockR : Option Int) :
    erroresNuevo nombre precioR stockR = [] ↔
      (nombre ≠ "" ∧ precioValido precioR ∧ stockValido stockR) := by
  unfold erroresNuevo precioValido stockValido
  cases precioR with
  | none => simp
  | some p =>
    cases stockR with
    | none => simp
    | some n =>
      by_cases hn : nombre = ""
      · simp [hn]
      · simp only [hn, if_false, List.nil_append, ne_eq, not_false_iff, true_and,
          Option.some.injEq]
        by_cases hp : p < 0
        · rw [if_pos hp]
          simp only [List.cons_append, reduceCtorEq, false_iff, not_and]
          intro ⟨p2, hp2, hple⟩
          rw [← hp2] at hple
          exact absurd hple (not_le.2 hp)
        · rw [if_neg hp, List.nil_append]
          by_cases hs : n < 0
          · rw [if_pos hs]
            simp only [reduceCtorEq, false_iff, not_and]
            intro _ ⟨n2, hn2, hnle⟩
            rw [← hn2] at hnle
            exact absurd hnle (by omega)
          · rw [if_neg hs]
            simp only [true_iff]
            exact ⟨⟨p, rfl, not_lt.1 hp⟩, ⟨n, rfl, by omega⟩⟩

/-- C4 (amended): only the panel form performs the claimed validation — it
rejects with the accumulated field messages, writing nothing, exactly when the
trimmed name is empty or the price does not parse as a non-negative number or
the stock does not parse as a non-negative integer, and otherwise writes the
document; the API create entry point does not validate: it writes the product
whenever price and stock merely parse (empty names and negative numbers
included, absent and empty fields defaulting to 0) and returns 400 writing
nothing only when parsing raises. -/
theorem C4_theorem :
    (∀ (db : DB) (newId : String) (nombre? precio? stock? : Option String),
      ¬ createValido nombre? precio? stock? →
      ∃ es, es ≠ [] ∧
        nuevo_producto_form db newId nombre? precio? stock? =
          (db, FormCreateResult.badRequest es)) ∧
    (∀ (db : DB) (newId : String) (nombre? precio? stock? : Option String),
      createValido nombre? precio? stock? →
      nuevo_producto_form db newId nombre? precio? stock? =
        ({ db with productos := db.productos ++
            [(newId, { nombre := some (pyStrip (nombre?.getD "")),
                       precio := some ((formPrecio precio?).getD 0),
                       stock := some ((formStock stock?).getD 0) })] },
         FormCreateResult.created)) ∧
    (∀ (db : DB) (newId : String) (nombre? precio? stock? : Option String)
        (q : ℚ) (m : Int),
      apiPrecio precio? = some q → apiStock stock? = some m →
      api_productos_post db newId nombre? precio? stock? =
        ({ db with productos := db.productos ++
            [(newId, { nombre := some (pyStrip (nombre?.getD "")),
                       nombre_lower := some (pyLower (pyStrip (nombre?.getD ""))),
                       precio := some q, stock := some m })] },
         ApiCreateResult.redirectPanel)) ∧
    (∀ (db : DB) (newId : String) (nombre? precio? stock? : Option String),
      apiPrecio precio? = none ∨ apiStock stock? = none →
      api_productos_post db newId nombre? precio? stock? = (db, ApiCreateResult.error400)) := by
  refine ⟨?_, ?_, ?_, ?_⟩
  · intro db newId nombre? precio? stock? hno
    refine ⟨erroresNuevo (pyStrip (nombre?.getD "")) (formPrecio precio?) (formStock stock?),
      ?_, ?_⟩
    · intro hnil
      exact hno ((erroresNuevo_nil_iff _ _ _).1 hnil)
    · unfold nuevo_producto_form
      rw [if_neg]
      intro hemp
      exact hno ((erroresNuevo_nil_iff _ _ _).1 (List.isEmpty_iff.1 hemp))
  · intro db newId nombre? precio? stock? hsi
    have hnil : erroresNuevo (pyStrip (nombre?.getD "")) (formPrecio precio?)
        (formStock stock?) = [] := (erroresNuevo_nil_iff _ _ _).2 hsi
    unfold nuevo_producto_form
    rw [if_pos (List.isEmpty_iff.2 hnil)]
  · intro db newId nombre? precio? stock? q m hq hm
    unfold api_productos_post
    rw [hq, hm]
  · intro db newId nombre? precio? stock? hno
    unfold api_productos_post
    rcases hno with hq | hm
    · rw [hq]
    · rw [hm]
      cases apiPrecio precio? <;> rfl

/-- C4, witness: a blank name is rejected by the panel form with a non-empty
message list and no write, while a valid submission is written; the API path
writes even a negative price. -/
theorem C4_witness :
    (¬ createValido (some " ") (some "1") (some "2")) ∧
    (∃ es, es ≠ [] ∧
      nuevo_producto_form {} "n1" (some " ") (some "1") (some "2") =
        ({}, FormCreateResult.badRequest es)) ∧
    createValido (some "Agua") (some "2.5") (some "7") ∧
    nuevo_producto_form {} "n2" (some "Agua") (some "2.5") (some "7") =
      ({ productos := [("n2", { nombre := some (pyStrip ((some "Agua").getD "")),
                                precio := some ((formPrecio (some "2.5")).getD 0),
                                stock := some ((formStock (some "7")).getD 0) })] },
       FormCreateResult.created) ∧
    api_productos_post {} "n3" (some "Agua") (some "-5") (some "7") =
      ({ productos := [("n3", { nombre := some (pyStrip ((some "Agua").getD "")),
                                nombre_lower := some (pyLower (pyStrip ((some "Agua").getD ""))),
                                precio := some (mkRat (-5) 1), stock := some 7 })] },
       ApiCreateResult.redirectPanel) := by
  have hinv : ¬ createValido (some " ") (some "1") (some "2") := by
    intro h
    exact h.1 (by decide)
  have hval : createValido (some "Agua") (some "2.5") (some "7") :=
    ⟨by decide, ⟨mkRat 5 2, by decide, by decide⟩, ⟨7, by decide, by decide⟩⟩
  refine ⟨hinv, C4_theorem.1 {} "n1" (some " ") (some "1") (some "2") hinv, hval,
    C4_theorem.2.1 {} "n2" (some "Agua") (some "2.5") (some "7") hval,
    C4_theorem.2.2.1 {} "n3" (some "Agua") (some "-5") (some "7") (mkRat (-5) 1) 7
      (by decide) (by decide)⟩

/-- C7, counterexample to the claim as stated: a stored nombre_lower beginning
with the query but whose next character lies above the U+F8FF sentinel (here
U+F900) starts with the query, yet falls outside the inclusive
start_at/end_at range, so the route answers 404. -/
theorem C7_counterexample :
    startsWith (pyLower (pyStrip "a")).data ((String.mk ['a', '\uF900']).data) = true ∧
    dbSentinela.productos.find? (fun x => x.1 = pyStrip "a") = none ∧
    buscar_producto dbSentinela (some "a") = BuscarResult.notFound := by
  decide

/-- C7 (amended): for a query that is non-empty after strip, the route first
answers any exact document id match; failing that, it scans the inclusive
range from the lowercased query to the query plus the U+F8FF sentinel on
nombre_lower: it answers 404 exactly when no document lies in that range, and
otherwise returns a document of the catalog that is in range — hence its
nombre_lower starts with the lowercased query — and whose nombre_lower is
lexicographically least among all in-range documents.  (Names whose remainder
after the query prefix exceeds U+F8FF lie outside the range and are missed,
as the counterexample shows.) -/
theorem C7_theorem (db : DB) (q : String) (hq : pyStrip q ≠ "") :
    (∀ d, db.productos.find? (fun x => x.1 = pyStrip q) = some d →
      buscar_producto db (some q) = BuscarResult.found d.1 d.2) ∧
    (db.productos.find? (fun x => x.1 = pyStrip q) = none →
      ((buscar_producto db (some q) = BuscarResult.notFound ↔
        ∀ d ∈ db.productos, enRango (pyLower (pyStrip q)).data d = false) ∧
       (∀ i p, buscar_producto db (some q) = BuscarResult.found i p →
        (i, p) ∈ db.productos ∧
        enRango (pyLower (pyStrip q)).data (i, p) = true ∧
        (∃ s, p.nombre_lower = some s ∧
          startsWith (pyLower (pyStrip q)).data s.data = true) ∧
        ∀ d ∈ db.productos, enRango (pyLower (pyStrip q)).data d = true →
          lexLe ((p.nombre_lower.getD "").data) ((d.2.nombre_lower.getD "").data) = true))) := by
  have hbp : buscar_producto db (some q) =
      match db.productos.find? (fun d => d.1 = pyStrip q) with
      | some d => BuscarResult.found d.1 d.2
      | none =>
        match firstInRange db.productos (pyLower (pyStrip q)).data with
        | some d => BuscarResult.found d.1 d.2
        | none => BuscarResult.notFound := by
    simp only [buscar_producto, Option.getD_some]
    rw [if_neg hq]
  constructor
  · intro d hd
    rw [hbp, hd]
  · intro hnone
    rw [hbp, hnone]
    constructor
    · cases hfr : firstInRange db.productos (pyLower (pyStrip q)).data with
      | none =>
        unfold firstInRange at hfr
        have hall := (buscarFold_none_iff (pyLower (pyStrip q)).data db.productos none).1 hfr
        exact iff_of_true rfl hall.2
      | some d =>
        unfold firstInRange at hfr
        rcases buscarFold_mem _ _ none d hfr with h | ⟨hmem, hr⟩
        · cases h
        · apply iff_of_false
          · intro hcontra
            exact BuscarResult.noConfusion hcontra
          · intro hall
            rw [hall d hmem] at hr
            cases hr
    · intro i p hip
      cases hfr : firstInRange db.productos (pyLower (pyStrip q)).data with
      | none =>
        rw [hfr] at hip
        exact absurd hip (fun h => BuscarResult.noConfusion h)
      | some d =>
        rw [hfr] at hip
        injection hip with h1 h2
        have hd : d = (i, p) := Prod.ext h1 h2
        rw [hd] at hfr
        unfold firstInRange at hfr
        rcases buscarFold_mem _ _ none (i, p) hfr with h | ⟨hmem, hr⟩
        · cases h
        · have hmin := (buscarFold_min _ _ none (i, p) hfr).2
          obtain ⟨s, hs, hsw⟩ := enRango_startsWith _ _ hr
          refine ⟨hmem, hr, ⟨s, hs, hsw⟩, ?_⟩
          intro e he hre
          exact lexLe_of_not_buscarKeyLt (i, p) e (hmin e he hre)

/-- C7, witness: the spec example, query "ABC" matches the stored "abc123" by
case-insensitive prefix and never "xabc"; the returned match is in range,
carries the prefix, and is lexicographically least among in-range names. -/
theorem C7_witness :
    pyStrip "ABC" ≠ "" ∧
    dbBusqueda.productos.find? (fun x => x.1 = pyStrip "ABC") = none ∧
    buscar_producto dbBusqueda (some "ABC") =
      BuscarResult.found "p9" { nombre := some "abc123", nombre_lower := some "abc123" } ∧
    enRango (pyLower (pyStrip "ABC")).data
      ("p2", { nombre := some "xabc", nombre_lower := some "xabc" }) = false ∧
    (("p9", { nombre := some "abc123", nombre_lower := some "abc123" }) ∈
        dbBusqueda.productos ∧
     enRango (pyLower (pyStrip "ABC")).data
       ("p9", { nombre := some "abc123", nombre_lower := some "abc123" }) = true ∧
     (∃ s, ({ nombre := some "abc123", nombre_lower := some "abc123" } :
        Producto).nombre_lower = some s ∧
        startsWith (pyLower (pyStrip "ABC")).data s.data = true) ∧
     ∀ d ∈ dbBusqueda.productos, enRango (pyLower (pyStrip "ABC")).data d = true →
       lexLe ((({ nombre := some "abc123", nombre_lower := some "abc123" } :
           Producto).nombre_lower.getD "").data)
         ((d.2.nombre_lower.getD "").data) = true) := by
  refine ⟨by decide, by decide, by decide, by decide, ?_⟩
  exact ((C7_theorem dbBusqueda "ABC" (by decide)).2 (by decide)).2 "p9"
    { nombre := some "abc123", nombre_lower := some "abc123" } (by decide)

/-- C8: the CSV export runs the same query as the ventas listing — same date
bounds, same descending timestamp order — and renders its rows: header id,
fecha, items, total, then per sale the document id, the timestamp as
YYYY-MM-DD HH:MM (empty when absent), the item count and the total.
Additionally, every listing the panel produces is pairwise descending by
timestamp and every row respects the from/to bounds (from midnight inclusive,
to plus one day exclusive). -/
theorem C8_theorem : ∀ (db : DB) (f? t? : Option String),
    export_ventas_csv db f? t? =
      (panel_ventas db f? t?).map (fun vs =>
        [Cell.str "id", Cell.str "fecha", Cell.str "items", Cell.str "total"] ::
          vs.map ventaCsvRow) ∧
    (∀ l, panel_ventas db f? t? = some l →
      l.Pairwise (fun x y => ∀ dx dy, x.ts = some dx → y.ts = some dy →
        dtLe dy dx = true) ∧
      ∀ r ∈ l, ∃ d, r.ts = some d ∧
        (∀ lo, ventaBound f? = some (some lo) → dtLe lo d = true) ∧
        (∀ hi, ventaBound t? = some (some hi) → dtLt d (addOneDay hi) = true)) := by
  intro db f? t?
  constructor
  · unfold export_ventas_csv panel_ventas ventasQueryCsv ventasQueryPanel
    cases hf : ventaBound f? with
    | none => rfl
    | some fb =>
      cases ht : (ventaBound t?).map (Option.map addOneDay) with
      | none => rfl
      | some tb => simp [List.map_map, Function.comp, ventaCsvRow]
  · intro l hl
    have hshape : ∃ fb tb, ventaBound f? = some fb ∧
        (ventaBound t?).map (Option.map addOneDay) = some tb ∧
        l = (sortByLe ventaDescLe (db.ventas.filter (ventaPasaFiltro fb tb))).map
          (fun d => ({ id := d.1, ts := d.2.ts, total := d.2.total.getD 0,
                       items_count := (d.2.items.map (fun i => i.cantidad.getD 0)).sum } :
            VentaResumen)) := by
      unfold panel_ventas ventasQueryPanel at hl
      cases hfb : ventaBound f? with
      | none =>
        rw [hfb] at hl
        exact absurd hl (by simp)
      | some fb =>
        rw [hfb] at hl
        cases htb : (ventaBound t?).map (Option.map addOneDay) with
        | none =>
          rw [htb] at hl
          exact absurd hl (by simp)
        | some tb =>
          rw [htb] at hl
          refine ⟨fb, tb, rfl, rfl, ?_⟩
          simp only [Option.map_some'] at hl
          injection hl with hl
          exact hl.symm
    obtain ⟨fb, tb, hfb, htb, hleq⟩ := hshape
    subst hleq
    constructor
    · have hpw := pairwise_sortByLe ventaDescLe ventaDescLe_total ventaDescLe_trans
        (db.ventas.filter (ventaPasaFiltro fb tb))
      refine List.Pairwise.map _ ?_ hpw
      intro a b hab dx dy hdx hdy
      simp only [ventaDescLe, decide_eq_true_eq] at hab
      unfold cmpVenta at hab
      have hdt : dtCmp (b.2.ts.getD {}) (a.2.ts.getD {}) ≠ Ordering.gt := by
        intro hg
        rw [hg] at hab
        exact hab rfl
      have hdx' : a.2.ts = some dx := hdx
      have hdy' : b.2.ts = some dy := hdy
      rw [hdx', hdy'] at hdt
      simp only [Option.getD_some] at hdt
      simp only [dtLe, decide_eq_true_eq]
      exact hdt
    · intro r hr
      obtain ⟨e, he, hre⟩ := List.mem_map.1 hr
      have hef : e ∈ db.ventas.filter (ventaPasaFiltro fb tb) := (mem_sortByLe _ _ _).1 he
      have hp := (List.mem_filter.1 hef).2
      unfold ventaPasaFiltro at hp
      cases hts : e.2.ts with
      | none =>
        rw [hts] at hp
        cases hp
      | some d =>
        rw [hts] at hp
        rw [Bool.and_eq_true] at hp
        refine ⟨d, ?_, ?_, ?_⟩
        · rw [← hre]
          exact hts
        · intro lo hlo
          rw [hfb] at hlo
          injection hlo with hlo
          have h1 := hp.1
          rw [hlo] at h1
          exact h1
        · intro hi hhi
          rw [hhi] at htb
          simp only [Option.map_some'] at htb
          injection htb with htb
          have h2 := hp.2
          rw [← htb] at h2
          exact h2

/-- C8, witness: with a from-date of 2024-01-01 the export and the panel agree
on the two dated sales in descending order, both respecting the bound. -/
theorem C8_witness :
    panel_ventas dbVentas (some "2024-01-01") none = some
      [⟨"v2", some ⟨2024, 2, 1, 9, 0, 0⟩, mkRat 7 2, 5⟩,
       ⟨"v1", some ⟨2024, 1, 15, 12, 30, 0⟩, mkRat 10 1, 2⟩] ∧
    (List.Pairwise (fun x y => ∀ dx dy, x.ts = some dx → y.ts = some dy →
        dtLe dy dx = true)
      [(⟨"v2", some ⟨2024, 2, 1, 9, 0, 0⟩, mkRat 7 2, 5⟩ : VentaResumen),
       ⟨"v1", some ⟨2024, 1, 15, 12, 30, 0⟩, mkRat 10 1, 2⟩] ∧
     ∀ r ∈ [(⟨"v2", some ⟨2024, 2, 1, 9, 0, 0⟩, mkRat 7 2, 5⟩ : VentaResumen),
            ⟨"v1", some ⟨2024, 1, 15, 12, 30, 0⟩, mkRat 10 1, 2⟩],
       ∃ d, r.ts = some d ∧
         (∀ lo, ventaBound (some "2024-01-01") = some (some lo) → dtLe lo d = true) ∧
         (∀ hi, ventaBound none = some (some hi) → dtLt d (addOneDay hi) = true)) :=
  ⟨by decide,
   (C8_theorem dbVentas (some "2024-01-01") none).2
     [⟨"v2", some ⟨2024, 2, 1, 9, 0, 0⟩, mkRat 7 2, 5⟩,
      ⟨"v1", some ⟨2024, 1, 15, 12, 30, 0⟩, mkRat 10 1, 2⟩] (by decide)⟩
